import Mathlib

/-! ESProber presence table (`src/src/main.cpp`).

A shallow embedding of the device table of the probe sniffer sketch and of the
functions that read and write it.

* `uint8_t mac[6]` is the structure `Mac` of six bytes (natural numbers; the
  source only copies and compares them).
* `int rssi` is an `Int` (the source only stores it and compares it with 0).
* `unsigned long ms` and the value of `millis()` are natural numbers; the two
  places where the source does 32-bit unsigned arithmetic on them
  (`ms + listtimeout * 1000` in `checklist`, `millis() - ms` in `printlist`)
  reduce modulo `2 ^ 32` explicitly.
* The global array `devicelist[maxdevices]` is a list of records, of length
  `maxdevices` in every state of the program; `slot devicelist i` reads
  `devicelist[i]` and `List.set` writes it. Every loop of the source runs
  `i = 0 .. maxdevices - 1`, written here as a recursion on the number of
  iterations left.
* `millis()` is the extra argument `now` of the functions that call it.
* `Serial.print`/`Serial.println` output is the list of completed lines.
-/

namespace ESProber

/-- The six bytes `mac[0] .. mac[5]` of a hardware address. -/
structure Mac where
  b0 : Nat
  b1 : Nat
  b2 : Nat
  b3 : Nat
  b4 : Nat
  b5 : Nat
deriving DecidableEq, Repr

/-- The record type `client_device` of the source. -/
structure client_device where
  mac : Mac
  rssi : Int
  ms : Nat
deriving DecidableEq, Repr

/-- `const int maxdevices = 255`. -/
def maxdevices : Nat := 255

/-- `const int listtimeout = 120` (seconds). -/
def listtimeout : Nat := 120

/-- The global array `devicelist`; its length is `maxdevices` in every state of
the program. -/
abbrev Table := List client_device

/-- The record `devicelist[i]`. The source never reads past the array; the
all-zero record stands for such a read. -/
def slot (devicelist : Table) (i : Nat) : client_device :=
  devicelist.getD i { mac := ⟨0, 0, 0, 0, 0, 0⟩, rssi := 0, ms := 0 }

/-- The test `adddevice` uses to pick a slot for reuse. -/
abbrev isEmpty (s : client_device) : Prop := s.mac.b0 = 0 ∧ s.rssi = 0

/-- The test `countdevices`, `checklist` and `printlist` use for a slot in use. -/
abbrev isLive (s : client_device) : Prop := s.mac.b0 ≠ 0 ∧ s.rssi ≠ 0

/-- Two hexadecimal digits of a byte, as `%02x` prints a `uint8`. -/
def hex2 (b : Nat) : String :=
  String.mk [Nat.digitChar (b / 16), Nat.digitChar (b % 16)]

/-- `macToString`: the six bytes in lower-case hexadecimal, colon separated. -/
def macToString (mac : Mac) : String :=
  hex2 mac.b0 ++ ":" ++ hex2 mac.b1 ++ ":" ++ hex2 mac.b2 ++ ":" ++
    hex2 mac.b3 ++ ":" ++ hex2 mac.b4 ++ ":" ++ hex2 mac.b5

/-- The loop of `adddevice`, with `n` iterations left at index `i`. -/
def adddeviceLoop (now : Nat) (mac : Mac) (rssi : Int) (devicelist : Table) :
    Nat → Nat → Int × Table
  | 0, _ => (-1, devicelist)
  | n + 1, i =>
    if (slot devicelist i).mac.b0 = 0 ∧ (slot devicelist i).rssi = 0 then
      ((i : Int), devicelist.set i
        { mac := ⟨mac.b0, mac.b1, mac.b2, mac.b3, mac.b4, mac.b5⟩, rssi := rssi, ms := now })
    else adddeviceLoop now mac rssi devicelist n (i + 1)

/-- `adddevice(mac, rssi)` with `millis() = now`: the returned `d` and the table
afterwards. -/
def adddevice (now : Nat) (devicelist : Table) (mac : Mac) (rssi : Int) : Int × Table :=
  adddeviceLoop now mac rssi devicelist maxdevices 0

/-- `updatedevice(index, rssi)` with `millis() = now`. -/
def updatedevice (now : Nat) (devicelist : Table) (index : Nat) (rssi : Int) : Table :=
  devicelist.set index { slot devicelist index with rssi := rssi, ms := now }

/-- `cleardevice(index)`: zeroes `mac[0]`, `rssi` and `ms`; `mac[1..5]` stay. -/
def cleardevice (devicelist : Table) (index : Nat) : Table :=
  devicelist.set index
    { mac := { (slot devicelist index).mac with b0 := 0 }, rssi := 0, ms := 0 }

/-- The loop of `cleardevices`. -/
def cleardevicesLoop : Nat → Nat → Table → Table
  | 0, _, devicelist => devicelist
  | n + 1, i, devicelist => cleardevicesLoop n (i + 1) (cleardevice devicelist i)

/-- `cleardevices()`. -/
def cleardevices (devicelist : Table) : Table :=
  cleardevicesLoop maxdevices 0 devicelist

/-- The loop of `countdevices`, with the running count `d`. -/
def countdevicesLoop (devicelist : Table) : Nat → Nat → Nat → Nat
  | 0, _, d => d
  | n + 1, i, d =>
    if (slot devicelist i).mac.b0 ≠ 0 ∧ (slot devicelist i).rssi ≠ 0 then
      countdevicesLoop devicelist n (i + 1) (d + 1)
    else countdevicesLoop devicelist n (i + 1) d

/-- `countdevices()`. -/
def countdevices (devicelist : Table) : Nat :=
  countdevicesLoop devicelist maxdevices 0 0

/-- The loop of `finddevice`. -/
def finddeviceLoop (devicelist : Table) (mac : Mac) : Nat → Nat → Int
  | 0, _ => -1
  | n + 1, i =>
    if (slot devicelist i).mac.b0 = mac.b0 ∧ (slot devicelist i).mac.b1 = mac.b1 ∧
        (slot devicelist i).mac.b2 = mac.b2 ∧ (slot devicelist i).mac.b3 = mac.b3 ∧
        (slot devicelist i).mac.b4 = mac.b4 ∧ (slot devicelist i).mac.b5 = mac.b5 then (i : Int)
    else finddeviceLoop devicelist mac n (i + 1)

/-- `finddevice(mac)`. -/
def finddevice (devicelist : Table) (mac : Mac) : Int :=
  finddeviceLoop devicelist mac maxdevices 0

/-- The loop of `checklist` with `millis() = now`: the table and the lines
printed so far. The sum `ms + listtimeout * 1000` is an `unsigned long`. -/
def checklistLoop (now : Nat) : Nat → Nat → Table × List String → Table × List String
  | 0, _, st => st
  | n + 1, i, (devicelist, out) =>
    if (slot devicelist i).mac.b0 ≠ 0 ∧ (slot devicelist i).rssi ≠ 0 ∧
        ((slot devicelist i).ms + listtimeout * 1000) % 2 ^ 32 < now then
      checklistLoop now n (i + 1)
        (cleardevice devicelist i,
          out ++ ["Device " ++ macToString (slot devicelist i).mac ++ " has left"])
    else checklistLoop now n (i + 1) (devicelist, out)

/-- `checklist()` with `millis() = now`. -/
def checklist (now : Nat) (devicelist : Table) : Table × List String :=
  checklistLoop now maxdevices 0 (devicelist, [])

/-- The slots the loop of `printlist` prints, in the order it prints them. -/
def printlistSlots (devicelist : Table) : Nat → Nat → List Nat
  | 0, _ => []
  | n + 1, i =>
    if (slot devicelist i).mac.b0 ≠ 0 ∧ (slot devicelist i).rssi ≠ 0 then
      i :: printlistSlots devicelist n (i + 1)
    else printlistSlots devicelist n (i + 1)

/-- The age `(millis() - ms) / 1000` that `printlist` prints, an `unsigned long`. -/
def age (now ms : Nat) : Nat := ((now + 2 ^ 32 - ms) % 2 ^ 32) / 1000

/-- The line `printlist` prints for one slot. -/
def printlistEntry (now : Nat) (s : client_device) : String :=
  "MAC: " ++ macToString s.mac ++ " RSSI: " ++ toString s.rssi ++
    " last seen " ++ toString (age now s.ms) ++ " seconds ago"

/-- `printlist()` with `millis() = now`: the lines printed. -/
def printlist (now : Nat) (devicelist : Table) : List String :=
  let c := countdevices devicelist
  ["", toString c ++ " registered devices (prober running for " ++
      toString (now / 1000) ++ " seconds):"] ++
    (if c > 0 then
      (printlistSlots devicelist maxdevices 0).map (fun i => printlistEntry now (slot devicelist i))
    else [])

/-- `onProbeRequest(evt)` with `evt.mac = mac`, `evt.rssi = rssi` and
`millis() = now`: the table afterwards and the lines printed. -/
def onProbeRequest (now : Nat) (devicelist : Table) (mac : Mac) (rssi : Int) :
    Table × List String :=
  let i := finddevice devicelist mac
  if i < 0 then
    let r := adddevice now devicelist mac rssi
    (r.2, [(if r.1 < 0 then "Unable to add new device to list" else "New device found") ++
      ", MAC: " ++ macToString mac ++ " RSSI: " ++ toString rssi])
  else (updatedevice now devicelist i.toNat rssi, [])

/-- The zero-initialised global array, before `setup()` runs. -/
def zeroed : Table :=
  List.replicate maxdevices { mac := ⟨0, 0, 0, 0, 0, 0⟩, rssi := 0, ms := 0 }

/-- The table once `setup()` has called `cleardevices()`. -/
def cleared : Table := cleardevices zeroed

/-- What can happen to the table after `setup()`: a probe request arrives, or
`loop()` calls `checklist()`; each reads the clock. -/
inductive Event where
  | probe (mac : Mac) (rssi : Int) (now : Nat)
  | sweep (now : Nat)

/-- The table after one event. -/
def step (devicelist : Table) : Event → Table
  | Event.probe mac rssi now => (onProbeRequest now devicelist mac rssi).1
  | Event.sweep now => (checklist now devicelist).1

/-- The table after a finite sequence of events. -/
def run (devicelist : Table) (evs : List Event) : Table :=
  evs.foldl step devicelist

/-! ## Sample inputs, reachable tables and invariants -/

/-- A sample hardware address, `aa:bb:cc:dd:ee:ff`. -/
def macA : Mac := ⟨0xAA, 0xBB, 0xCC, 0xDD, 0xEE, 0xFF⟩

/-- A second sample hardware address, `b8:27:eb:01:02:03`. -/
def macB : Mac := ⟨0xB8, 0x27, 0xEB, 0x01, 0x02, 0x03⟩

/-- A table whose 255 slots are all live, with pairwise different addresses. -/
def fullTable : Table :=
  (List.range maxdevices).map
    (fun i => { mac := ⟨0x02, 0, 0, 0, 0, i + 1⟩, rssi := -40, ms := 0 })

/-- The table after `aa:bb:cc:dd:ee:ff` was seen with signal -40 at time 0. -/
def tableA : Table := (onProbeRequest 0 zeroed macA (-40)).1

/-- The table after `aa:bb:cc:dd:ee:ff` was seen at time 4294847296, which is
`2 ^ 32 - 120000`. -/
def tableLate : Table := (onProbeRequest 4294847296 zeroed macA (-40)).1

/-- A hardware address whose first byte is zero, `00:11:22:33:44:55`. -/
def macZ : Mac := ⟨0x00, 0x11, 0x22, 0x33, 0x44, 0x55⟩

/-- A table of the program: one that a finite sequence of probe requests and
sweeps, at any clock values, produces from the table `setup()` leaves. -/
def Reachable (dl : Table) : Prop := ∃ evs : List Event, run cleared evs = dl

/-- An event whose observation, if it is one, has `rssi ≠ 0`. -/
def Event.signalled : Event → Prop
  | Event.probe _ rssi _ => rssi ≠ 0
  | Event.sweep _ => True

/-- A table produced from the table `setup()` leaves by sweeps and by
observations with `rssi ≠ 0` only (any address). -/
def ReachableSignalled (dl : Table) : Prop :=
  ∃ evs : List Event, (∀ e, e ∈ evs → Event.signalled e) ∧ run cleared evs = dl

/-- Two different slots hold the same six bytes only if the first is 0. -/
def distinctMacs (dl : Table) : Prop :=
  ∀ i j, i < maxdevices → j < maxdevices → i ≠ j →
    (slot dl i).mac = (slot dl j).mac → (slot dl i).mac.b0 = 0

/-- Every slot whose `mac[0]` is not 0 has an `rssi` that is not 0. -/
def namedHasSignal (dl : Table) : Prop :=
  ∀ i, i < maxdevices → (slot dl i).mac.b0 ≠ 0 → (slot dl i).rssi ≠ 0

/-- The table after `aa:bb:cc:dd:ee:ff` was seen at time 0 and
`b8:27:eb:01:02:03` at time 1. -/
def tableAB : Table :=
  run zeroed [Event.probe macA (-40) 0, Event.probe macB (-40) 1]

/-- The table after `00:11:22:33:44:55` was seen with signal -40 at time 0. -/
def tableZ : Table := run zeroed [Event.probe macZ (-40) 0]

instance Event.decidableSignalled (e : Event) : Decidable (Event.signalled e) :=
  match e with
  | Event.probe _ rssi _ => inferInstanceAs (Decidable (rssi ≠ 0))
  | Event.sweep _ => inferInstanceAs (Decidable True)

/-- The address `00:27:eb:01:02:03`: `macB` with its first byte zeroed, as
`cleardevice` leaves it in a slot. -/
def macB0 : Mac := ⟨0x00, 0x27, 0xEB, 0x01, 0x02, 0x03⟩

/-- The table after `macA` and `macB` were seen at times 0 and 1 and the sweep
at time 130000 cleared both slots. -/
def tableSwept : Table :=
  run zeroed [Event.probe macA (-40) 0, Event.probe macB (-40) 1, Event.sweep 130000]

/-- The test `checklist` applies to a slot at clock value `now`. -/
abbrev isStale (now : Nat) (s : client_device) : Prop :=
  s.mac.b0 ≠ 0 ∧ s.rssi ≠ 0 ∧ (s.ms + listtimeout * 1000) % 2 ^ 32 < now

/-- The slots that pass the live test, in increasing order. -/
def liveSlots (dl : Table) : List Nat :=
  (List.range maxdevices).filter (fun i => decide (isLive (slot dl i)))

/-- The slots that pass the test of `checklist` at `now`, in increasing order. -/
def staleSlots (now : Nat) (dl : Table) : List Nat :=
  (List.range maxdevices).filter (fun i => decide (isStale now (slot dl i)))

/-- A slot in which exactly one of `mac[0]` and `rssi` is zero. -/
abbrev halfZero (s : client_device) : Prop :=
  (s.mac.b0 = 0 ∧ s.rssi ≠ 0) ∨ (s.mac.b0 ≠ 0 ∧ s.rssi = 0)

/-! ## Lemmas on the slots and the loops, and the claims -/

theorem slot_set (dl : Table) (v : client_device) :
    ∀ i j : Nat, slot (dl.set i v) j = if j = i ∧ i < dl.length then v else slot dl j := by
  induction dl with
  | nil => intro i j; simp [slot]
  | cons a l ih =>
    intro i j
    cases i with
    | zero =>
      cases j with
      | zero => simp [slot]
      | succ j => simp [slot]
    | succ i =>
      cases j with
      | zero => simp [slot]
      | succ j =>
        have h := ih i j
        simp only [slot, List.set_cons_succ, List.getD_cons_succ, List.length_cons,
          Nat.succ_lt_succ_iff, add_left_inj] at h ⊢
        exact h

theorem slot_set_eq (dl : Table) (v : client_device) (i : Nat) (h : i < dl.length) :
    slot (dl.set i v) i = v := by
  rw [slot_set]; simp [h]

theorem slot_set_ne (dl : Table) (v : client_device) (i j : Nat) (h : j ≠ i) :
    slot (dl.set i v) j = slot dl j := by
  rw [slot_set]; simp [h]

theorem mac_eq_iff (a b : Mac) :
    (a.b0 = b.b0 ∧ a.b1 = b.b1 ∧ a.b2 = b.b2 ∧ a.b3 = b.b3 ∧ a.b4 = b.b4 ∧ a.b5 = b.b5) ↔
      a = b := by
  cases a; cases b; simp

theorem adddeviceLoop_spec (now : Nat) (mac : Mac) (rssi : Int) (dl : Table) :
    ∀ n i : Nat,
      (adddeviceLoop now mac rssi dl n i = (-1, dl) ∧
          ∀ j, i ≤ j → j < i + n → ¬ isEmpty (slot dl j)) ∨
      (∃ d, i ≤ d ∧ d < i + n ∧ isEmpty (slot dl d) ∧
          (∀ j, i ≤ j → j < d → ¬ isEmpty (slot dl j)) ∧
          adddeviceLoop now mac rssi dl n i =
            ((d : Int), dl.set d { mac := mac, rssi := rssi, ms := now })) := by
  intro n
  induction n with
  | zero =>
    intro i
    left
    refine ⟨rfl, ?_⟩
    intro j h1 h2
    omega
  | succ n ih =>
    intro i
    by_cases h : (slot dl i).mac.b0 = 0 ∧ (slot dl i).rssi = 0
    · right
      refine ⟨i, le_refl i, by omega, h, ?_, ?_⟩
      · intro j h1 h2; omega
      · simp only [adddeviceLoop, if_pos h]
    · rcases ih (i + 1) with ⟨heq, hall⟩ | ⟨d, hd1, hd2, hd3, hd4, heq⟩
      · left
        refine ⟨?_, ?_⟩
        · simp only [adddeviceLoop, if_neg h]; exact heq
        · intro j h1 h2
          by_cases hji : j = i
          · subst hji; exact h
          · exact hall j (by omega) (by omega)
      · right
        refine ⟨d, by omega, by omega, hd3, ?_, ?_⟩
        · intro j h1 h2
          by_cases hji : j = i
          · subst hji; exact h
          · exact hd4 j (by omega) h2
        · simp only [adddeviceLoop, if_neg h]; exact heq

theorem finddeviceLoop_spec (dl : Table) (mac : Mac) :
    ∀ n i : Nat,
      (finddeviceLoop dl mac n i = -1 ∧ ∀ j, i ≤ j → j < i + n → (slot dl j).mac ≠ mac) ∨
      (∃ d, i ≤ d ∧ d < i + n ∧ (slot dl d).mac = mac ∧
          (∀ j, i ≤ j → j < d → (slot dl j).mac ≠ mac) ∧
          finddeviceLoop dl mac n i = (d : Int)) := by
  intro n
  induction n with
  | zero =>
    intro i
    left
    refine ⟨rfl, ?_⟩
    intro j h1 h2
    omega
  | succ n ih =>
    intro i
    by_cases h : (slot dl i).mac = mac
    · right
      refine ⟨i, le_refl i, by omega, h, ?_, ?_⟩
      · intro j h1 h2; omega
      · simp only [finddeviceLoop, if_pos ((mac_eq_iff _ _).2 h)]
    · have h6 := mt (mac_eq_iff (slot dl i).mac mac).1 h
      rcases ih (i + 1) with ⟨heq, hall⟩ | ⟨d, hd1, hd2, hd3, hd4, heq⟩
      · left
        refine ⟨?_, ?_⟩
        · simp only [finddeviceLoop, if_neg h6]; exact heq
        · intro j h1 h2
          by_cases hji : j = i
          · subst hji; exact h
          · exact hall j (by omega) (by omega)
      · right
        refine ⟨d, by omega, by omega, hd3, ?_, ?_⟩
        · intro j h1 h2
          by_cases hji : j = i
          · subst hji; exact h
          · exact hd4 j (by omega) h2
        · simp only [finddeviceLoop, if_neg h6]; exact heq

theorem adddevice_cases (now : Nat) (mac : Mac) (rssi : Int) (dl : Table) :
    (adddevice now dl mac rssi = (-1, dl) ∧ ∀ j, j < maxdevices → ¬ isEmpty (slot dl j)) ∨
    (∃ d, d < maxdevices ∧ isEmpty (slot dl d) ∧ (∀ j, j < d → ¬ isEmpty (slot dl j)) ∧
      adddevice now dl mac rssi =
        ((d : Int), dl.set d { mac := mac, rssi := rssi, ms := now })) := by
  rcases adddeviceLoop_spec now mac rssi dl maxdevices 0 with ⟨heq, hall⟩ | ⟨d, _, hd2, hd3, hd4, heq⟩
  · left
    exact ⟨heq, fun j hj => hall j (Nat.zero_le j) (by omega)⟩
  · right
    exact ⟨d, by omega, hd3, fun j hj => hd4 j (Nat.zero_le j) hj, heq⟩

theorem finddevice_cases (dl : Table) (mac : Mac) :
    (finddevice dl mac = -1 ∧ ∀ j, j < maxdevices → (slot dl j).mac ≠ mac) ∨
    (∃ d, d < maxdevices ∧ (slot dl d).mac = mac ∧ (∀ j, j < d → (slot dl j).mac ≠ mac) ∧
      finddevice dl mac = (d : Int)) := by
  rcases finddeviceLoop_spec dl mac maxdevices 0 with ⟨heq, hall⟩ | ⟨d, _, hd2, hd3, hd4, heq⟩
  · left
    exact ⟨heq, fun j hj => hall j (Nat.zero_le j) (by omega)⟩
  · right
    exact ⟨d, by omega, hd3, fun j hj => hd4 j (Nat.zero_le j) hj, heq⟩

theorem isLive_slot_lt (dl : Table) (i : Nat) (h : isLive (slot dl i)) : i < dl.length := by
  by_contra hlt
  have hz : slot dl i = { mac := ⟨0, 0, 0, 0, 0, 0⟩, rssi := 0, ms := 0 } := by
    unfold slot
    exact List.getD_eq_default _ _ (by omega)
  rw [hz] at h
  exact h.1 rfl

theorem length_cleardevice (dl : Table) (i : Nat) : (cleardevice dl i).length = dl.length := by
  simp [cleardevice]

theorem length_updatedevice (now : Nat) (dl : Table) (i : Nat) (rssi : Int) :
    (updatedevice now dl i rssi).length = dl.length := by
  simp [updatedevice]

theorem countdevicesLoop_acc (dl : Table) :
    ∀ n i d : Nat, countdevicesLoop dl n i d = d + countdevicesLoop dl n i 0 := by
  intro n
  induction n with
  | zero => intro i d; simp [countdevicesLoop]
  | succ n ih =>
    intro i d
    by_cases h : (slot dl i).mac.b0 ≠ 0 ∧ (slot dl i).rssi ≠ 0
    · simp only [countdevicesLoop, if_pos h]
      rw [ih (i + 1) (d + 1), ih (i + 1) (0 + 1)]
      omega
    · simp only [countdevicesLoop, if_neg h]
      exact ih (i + 1) d

theorem countdevicesLoop_le (dl : Table) :
    ∀ n i d : Nat, countdevicesLoop dl n i d ≤ d + n := by
  intro n
  induction n with
  | zero => intro i d; simp [countdevicesLoop]
  | succ n ih =>
    intro i d
    by_cases h : (slot dl i).mac.b0 ≠ 0 ∧ (slot dl i).rssi ≠ 0
    · simp only [countdevicesLoop, if_pos h]
      have := ih (i + 1) (d + 1)
      omega
    · simp only [countdevicesLoop, if_neg h]
      have := ih (i + 1) d
      omega

theorem countdevicesLoop_congr (dl dl2 : Table) :
    ∀ n i d : Nat, (∀ j, i ≤ j → j < i + n → (isLive (slot dl2 j) ↔ isLive (slot dl j))) →
      countdevicesLoop dl2 n i d = countdevicesLoop dl n i d := by
  intro n
  induction n with
  | zero => intro i d _; simp [countdevicesLoop]
  | succ n ih =>
    intro i d hc
    have hi := hc i (le_refl i) (by omega)
    have hrest : ∀ d, countdevicesLoop dl2 n (i + 1) d = countdevicesLoop dl n (i + 1) d :=
      fun d => ih (i + 1) d (fun j h1 h2 => hc j (by omega) (by omega))
    by_cases h : (slot dl i).mac.b0 ≠ 0 ∧ (slot dl i).rssi ≠ 0
    · simp only [countdevicesLoop, if_pos h, if_pos (hi.2 h)]
      exact hrest _
    · simp only [countdevicesLoop, if_neg h, if_neg (mt hi.1 h)]
      exact hrest _

theorem countdevicesLoop_gain (dl dl2 : Table) (k : Nat)
    (hother : ∀ j, j ≠ k → slot dl2 j = slot dl j)
    (hold : ¬ isLive (slot dl k)) (hnew : isLive (slot dl2 k)) :
    ∀ n i d : Nat, i ≤ k → k < i + n →
      countdevicesLoop dl2 n i d = countdevicesLoop dl n i d + 1 := by
  intro n
  induction n with
  | zero => intro i d h1 h2; omega
  | succ n ih =>
    intro i d h1 h2
    by_cases hik : i = k
    · subst hik
      simp only [countdevicesLoop, if_pos hnew, if_neg hold]
      rw [countdevicesLoop_congr dl dl2 n (i + 1) (d + 1)
        (fun j hj1 _ => by rw [hother j (by omega)])]
      rw [countdevicesLoop_acc dl n (i + 1) (d + 1), countdevicesLoop_acc dl n (i + 1) d]
      omega
    · have hsame : slot dl2 i = slot dl i := hother i hik
      by_cases h : (slot dl i).mac.b0 ≠ 0 ∧ (slot dl i).rssi ≠ 0
      · simp only [countdevicesLoop, hsame, if_pos h]
        exact ih (i + 1) (d + 1) (by omega) (by omega)
      · simp only [countdevicesLoop, hsame, if_neg h]
        exact ih (i + 1) d (by omega) (by omega)

theorem checklistLoop_length (now : Nat) :
    ∀ (n i : Nat) (dl : Table) (out : List String),
      (checklistLoop now n i (dl, out)).1.length = dl.length := by
  intro n
  induction n with
  | zero => intro i dl out; rfl
  | succ n ih =>
    intro i dl out
    by_cases h : (slot dl i).mac.b0 ≠ 0 ∧ (slot dl i).rssi ≠ 0 ∧
        ((slot dl i).ms + listtimeout * 1000) % 2 ^ 32 < now
    · simp only [checklistLoop, if_pos h]
      rw [ih, length_cleardevice]
    · simp only [checklistLoop, if_neg h]
      rw [ih]

theorem checklistLoop_slot (now : Nat) :
    ∀ (n i : Nat) (dl : Table) (out : List String) (j : Nat),
      slot (checklistLoop now n i (dl, out)).1 j =
        if i ≤ j ∧ j < i + n ∧ isLive (slot dl j) ∧
            ((slot dl j).ms + listtimeout * 1000) % 2 ^ 32 < now then
          { mac := { (slot dl j).mac with b0 := 0 }, rssi := 0, ms := 0 }
        else slot dl j := by
  intro n
  induction n with
  | zero =>
    intro i dl out j
    have : ¬ (i ≤ j ∧ j < i + 0 ∧ isLive (slot dl j) ∧
        ((slot dl j).ms + listtimeout * 1000) % 2 ^ 32 < now) := by
      intro h; omega
    rw [if_neg this]; rfl
  | succ n ih =>
    intro i dl out j
    by_cases h : (slot dl i).mac.b0 ≠ 0 ∧ (slot dl i).rssi ≠ 0 ∧
        ((slot dl i).ms + listtimeout * 1000) % 2 ^ 32 < now
    · simp only [checklistLoop, if_pos h]
      rw [ih]
      have hlt : i < dl.length := isLive_slot_lt dl i ⟨h.1, h.2.1⟩
      by_cases hji : j = i
      · subst hji
        have hno : ¬ (j + 1 ≤ j ∧ j < j + 1 + n ∧ isLive (slot (cleardevice dl j) j) ∧
            ((slot (cleardevice dl j) j).ms + listtimeout * 1000) % 2 ^ 32 < now) := by
          intro hh; omega
        have hyes : j ≤ j ∧ j < j + (n + 1) ∧ isLive (slot dl j) ∧
            ((slot dl j).ms + listtimeout * 1000) % 2 ^ 32 < now :=
          ⟨le_refl j, by omega, ⟨h.1, h.2.1⟩, h.2.2⟩
        rw [if_neg hno, if_pos hyes]
        unfold cleardevice
        rw [slot_set_eq _ _ _ hlt]
      · have hs : slot (cleardevice dl i) j = slot dl j := by
          unfold cleardevice
          exact slot_set_ne _ _ _ _ hji
        rw [hs]
        have hiff : (i + 1 ≤ j ∧ j < i + 1 + n ∧ isLive (slot dl j) ∧
            ((slot dl j).ms + listtimeout * 1000) % 2 ^ 32 < now) ↔
            (i ≤ j ∧ j < i + (n + 1) ∧ isLive (slot dl j) ∧
            ((slot dl j).ms + listtimeout * 1000) % 2 ^ 32 < now) := by
          constructor
          · rintro ⟨a, b, c⟩; exact ⟨by omega, by omega, c⟩
          · rintro ⟨a, b, c⟩; exact ⟨by omega, by omega, c⟩
        simp only [hiff]
    · simp only [checklistLoop, if_neg h]
      rw [ih]
      by_cases hji : j = i
      · subst hji
        have hno : ¬ (j + 1 ≤ j ∧ j < j + 1 + n ∧ isLive (slot dl j) ∧
            ((slot dl j).ms + listtimeout * 1000) % 2 ^ 32 < now) := by
          intro hh; omega
        have hno2 : ¬ (j ≤ j ∧ j < j + (n + 1) ∧ isLive (slot dl j) ∧
            ((slot dl j).ms + listtimeout * 1000) % 2 ^ 32 < now) := by
          rintro ⟨_, _, c, e⟩; exact h ⟨c.1, c.2, e⟩
        rw [if_neg hno, if_neg hno2]
      · have hiff : (i + 1 ≤ j ∧ j < i + 1 + n ∧ isLive (slot dl j) ∧
            ((slot dl j).ms + listtimeout * 1000) % 2 ^ 32 < now) ↔
            (i ≤ j ∧ j < i + (n + 1) ∧ isLive (slot dl j) ∧
            ((slot dl j).ms + listtimeout * 1000) % 2 ^ 32 < now) := by
          constructor
          · rintro ⟨a, b, c⟩; exact ⟨by omega, by omega, c⟩
          · rintro ⟨a, b, c⟩; exact ⟨by omega, by omega, c⟩
        simp only [hiff]

set_option maxRecDepth 100000 in
set_option maxHeartbeats 4000000 in
theorem cleared_eq_zeroed : cleared = zeroed := by decide

theorem mem_printlistSlots (dl : Table) :
    ∀ n i j : Nat, j ∈ printlistSlots dl n i ↔ i ≤ j ∧ j < i + n ∧ isLive (slot dl j) := by
  intro n
  induction n with
  | zero =>
    intro i j
    simp only [printlistSlots, List.not_mem_nil, false_iff]
    intro h
    omega
  | succ n ih =>
    intro i j
    by_cases h : (slot dl i).mac.b0 ≠ 0 ∧ (slot dl i).rssi ≠ 0
    · simp only [printlistSlots, if_pos h, List.mem_cons, ih]
      constructor
      · rintro (rfl | ⟨a, b, c⟩)
        · exact ⟨le_refl _, by omega, h⟩
        · exact ⟨by omega, by omega, c⟩
      · rintro ⟨a, b, c⟩
        by_cases hji : j = i
        · exact Or.inl hji
        · exact Or.inr ⟨by omega, by omega, c⟩
    · simp only [printlistSlots, if_neg h, ih]
      constructor
      · rintro ⟨a, b, c⟩
        exact ⟨by omega, by omega, c⟩
      · rintro ⟨a, b, c⟩
        have hji : j ≠ i := by
          rintro rfl
          exact h c
        exact ⟨by omega, by omega, c⟩

/-- C2. `countdevices()` is at most `maxdevices` in every table state; and when
every one of the `maxdevices` slots is live, `adddevice(mac, rssi)` returns -1
for any address, signal level and clock value, leaves the table as it was, and
so leaves `countdevices()` as it was. -/
theorem capacity_bound (dl : Table) :
    countdevices dl ≤ maxdevices ∧
    ((∀ i, i < maxdevices → isLive (slot dl i)) →
      ∀ (mac : Mac) (rssi : Int) (now : Nat),
        (adddevice now dl mac rssi).1 = -1 ∧ (adddevice now dl mac rssi).2 = dl ∧
        countdevices (adddevice now dl mac rssi).2 = countdevices dl) := by
  refine ⟨?_, ?_⟩
  · have := countdevicesLoop_le dl maxdevices 0 0
    unfold countdevices
    omega
  · intro hfull mac rssi now
    rcases adddevice_cases now mac rssi dl with ⟨heq, _⟩ | ⟨d, hd, hempty, _, _⟩
    · rw [heq]
      exact ⟨rfl, rfl, rfl⟩
    · exact absurd hempty.1 (hfull d hd).1

set_option maxRecDepth 100000 in
/-- C2 at the full table `fullTable`: every slot is live, and adding
`aa:bb:cc:dd:ee:ff` is refused without touching the table. -/
theorem capacity_bound_witness :
    (∀ i, i < maxdevices → isLive (slot fullTable i)) ∧
    (adddevice 7 fullTable macA (-40)).1 = -1 ∧
    (adddevice 7 fullTable macA (-40)).2 = fullTable ∧
    countdevices (adddevice 7 fullTable macA (-40)).2 = countdevices fullTable :=
  ⟨by decide, (capacity_bound fullTable).2 (by decide) macA (-40) 7⟩

/-- C3, as the code has it. A live slot whose deadline `ms + listtimeout * 1000`
lies strictly before `now` (that is, `now - ms > timeout`) is cleared by
`checklist()` run at `now`: afterwards the slot holds `mac[0] = 0`, `rssi = 0`,
`ms = 0`, is not live, and is not among the slots the next `printlist()`
prints. -/
theorem checklist_evicts_stale (now : Nat) (dl : Table) (i : Nat)
    (hi : i < maxdevices) (hlive : isLive (slot dl i))
    (hstale : (slot dl i).ms + listtimeout * 1000 < now) :
    slot (checklist now dl).1 i =
        { mac := { (slot dl i).mac with b0 := 0 }, rssi := 0, ms := 0 } ∧
      ¬ isLive (slot (checklist now dl).1 i) ∧
      i ∉ printlistSlots (checklist now dl).1 maxdevices 0 := by
  have hmod : ((slot dl i).ms + listtimeout * 1000) % 2 ^ 32 < now :=
    lt_of_le_of_lt (Nat.mod_le _ _) hstale
  have hslot : slot (checklist now dl).1 i =
      { mac := { (slot dl i).mac with b0 := 0 }, rssi := 0, ms := 0 } := by
    unfold checklist
    rw [checklistLoop_slot]
    exact if_pos ⟨Nat.zero_le i, by omega, hlive, hmod⟩
  have hdead : ¬ isLive (slot (checklist now dl).1 i) := by
    rw [hslot]
    intro h
    exact h.1 rfl
  refine ⟨hslot, hdead, ?_⟩
  intro hmem
  exact hdead ((mem_printlistSlots _ _ _ _).1 hmem).2.2

set_option maxRecDepth 100000 in
/-- C3 as amended, at `tableA`: slot 0, last seen at 0, is cleared by the sweep
at 120001 ms. -/
theorem checklist_evicts_stale_witness :
    isLive (slot tableA 0) ∧
    slot (checklist 120001 tableA).1 0 =
        { mac := { (slot tableA 0).mac with b0 := 0 }, rssi := 0, ms := 0 } ∧
      ¬ isLive (slot (checklist 120001 tableA).1 0) ∧
      0 ∉ printlistSlots (checklist 120001 tableA).1 maxdevices 0 :=
  ⟨by decide, checklist_evicts_stale 120001 tableA 0 (by decide) (by decide) (by decide)⟩

set_option maxRecDepth 100000 in
/-- C3 fails at the boundary. Slot 0 of `tableA` is live with `ms = 0`; at
`now = 120000` the elapsed time equals the timeout, yet `checklist()` leaves the
slot live and the next `printlist()` still lists it. -/
theorem checklist_boundary_not_evicted :
    isLive (slot tableA 0) ∧
    120000 - (slot tableA 0).ms ≥ listtimeout * 1000 ∧
    isLive (slot (checklist 120000 tableA).1 0) ∧
    0 ∈ printlistSlots (checklist 120000 tableA).1 maxdevices 0 := by
  decide

/-- C4, as the code has it. A live slot with `ms ≤ now`, `now - ms < timeout`
and a deadline `ms + listtimeout * 1000` that still fits in 32 bits is left
unchanged, and so live, by `checklist()` run at `now`. -/
theorem checklist_keeps_fresh (now : Nat) (dl : Table) (i : Nat)
    (hlive : isLive (slot dl i)) (hge : (slot dl i).ms ≤ now)
    (hfresh : now - (slot dl i).ms < listtimeout * 1000)
    (hfits : (slot dl i).ms + listtimeout * 1000 < 2 ^ 32) :
    slot (checklist now dl).1 i = slot dl i ∧ isLive (slot (checklist now dl).1 i) := by
  have hmod : ¬ ((slot dl i).ms + listtimeout * 1000) % 2 ^ 32 < now := by
    rw [Nat.mod_eq_of_lt hfits]
    omega
  have hslot : slot (checklist now dl).1 i = slot dl i := by
    unfold checklist
    rw [checklistLoop_slot]
    exact if_neg (fun h => hmod h.2.2.2)
  exact ⟨hslot, by rw [hslot]; exact hlive⟩

set_option maxRecDepth 100000 in
/-- C4 as amended, at `tableA`: slot 0, last seen at 0, survives the sweep at
119999 ms unchanged. -/
theorem checklist_keeps_fresh_witness :
    isLive (slot tableA 0) ∧
    slot (checklist 119999 tableA).1 0 = slot tableA 0 ∧
      isLive (slot (checklist 119999 tableA).1 0) :=
  ⟨by decide,
    checklist_keeps_fresh 119999 tableA 0 (by decide) (by decide) (by decide) (by decide)⟩

set_option maxRecDepth 100000 in
/-- C4 fails when the deadline wraps. Slot 0 of `tableLate` is live with
`ms = 2 ^ 32 - 120000`; at `now = ms` no time has passed, both values are
32-bit, yet the 32-bit sum `ms + 120000` is 0, below `now`, and `checklist()`
clears the slot. -/
theorem checklist_wrap_evicts_fresh :
    isLive (slot tableLate 0) ∧
    (slot tableLate 0).ms = 4294847296 ∧
    (slot tableLate 0).ms ≤ 4294847296 ∧
    4294847296 - (slot tableLate 0).ms < listtimeout * 1000 ∧
    4294847296 < 2 ^ 32 ∧
    ¬ isLive (slot (checklist 4294847296 tableLate).1 0) ∧
    slot (checklist 4294847296 tableLate).1 0 ≠ slot tableLate 0 := by
  decide

theorem finddevice_eq_of_first (dl : Table) (mac : Mac) (d : Nat) (hd : d < maxdevices)
    (hm : (slot dl d).mac = mac) (hfirst : ∀ j, j < d → (slot dl j).mac ≠ mac) :
    finddevice dl mac = (d : Int) := by
  rcases finddevice_cases dl mac with ⟨_, hall⟩ | ⟨e, he, hem, hefirst, heq⟩
  · exact absurd hm (hall d hd)
  · have hde : e = d := by
      rcases Nat.lt_trichotomy e d with h | h | h
      · exact absurd hem (hfirst e h)
      · exact h
      · exact absurd hm (hefirst d h)
    rw [heq, hde]

theorem onProbeRequest_hit (now : Nat) (dl : Table) (mac : Mac) (rssi : Int) (d : Nat)
    (h : finddevice dl mac = (d : Int)) :
    onProbeRequest now dl mac rssi = (updatedevice now dl d rssi, []) := by
  have hnot : ¬ ((d : Int) < 0) := by omega
  simp only [onProbeRequest, h, if_neg hnot, Int.toNat_ofNat]

theorem onProbeRequest_miss (now : Nat) (dl : Table) (mac : Mac) (rssi : Int)
    (h : finddevice dl mac = -1) :
    onProbeRequest now dl mac rssi =
      ((adddevice now dl mac rssi).2,
        [(if (adddevice now dl mac rssi).1 < 0 then "Unable to add new device to list"
          else "New device found") ++
          ", MAC: " ++ macToString mac ++ " RSSI: " ++ toString rssi]) := by
  have hneg : ((-1 : Int) < 0) := by omega
  simp only [onProbeRequest, h, if_pos hneg]

theorem age_eq (now ms : Nat) (h1 : ms ≤ now) (h2 : now < 2 ^ 32) :
    age now ms = (now - ms) / 1000 := by
  unfold age
  have : (now + 2 ^ 32 - ms) % 2 ^ 32 = now - ms := by
    have h3 : now + 2 ^ 32 - ms = (now - ms) + 2 ^ 32 := by omega
    rw [h3, Nat.add_mod_right, Nat.mod_eq_of_lt (by omega)]
  rw [this]

theorem string_append_right_cancel (a b c : String) (h : a ++ c = b ++ c) : a = b := by
  have h1 := congrArg String.data h
  simp only [String.data_append] at h1
  exact String.ext (List.append_cancel_right h1)

theorem notice_ne (mac : Mac) (rssi : Int) :
    "New device found" ++ ", MAC: " ++ macToString mac ++ " RSSI: " ++ toString rssi ≠
      "Unable to add new device to list" ++ ", MAC: " ++ macToString mac ++ " RSSI: " ++
        toString rssi := by
  intro h
  have h1 := string_append_right_cancel _ _ _ h
  have h2 := string_append_right_cancel _ _ _ h1
  have h3 := string_append_right_cancel _ _ _ h2
  have h4 := string_append_right_cancel _ _ _ h3
  exact absurd h4 (by decide)

theorem length_zeroed : zeroed.length = maxdevices := by
  simp [zeroed]

theorem length_cleared : cleared.length = maxdevices := by
  rw [cleared_eq_zeroed]; exact length_zeroed

set_option maxRecDepth 100000 in
theorem finddevice_cleared_macA : finddevice cleared macA = -1 := by
  rw [cleared_eq_zeroed]; decide

set_option maxRecDepth 100000 in
theorem isEmpty_cleared_zero : isEmpty (slot cleared 0) := by
  rw [cleared_eq_zeroed]; decide

/-- C5. Round trip insert, find, refresh, find. In a table of `maxdevices`
slots where `finddevice(mac)` returns -1 and some slot is empty,
`adddevice(mac, rssi)` at time `t0` returns a slot `d ≥ 0`; then
`finddevice(mac)` returns `d` and slot `d` holds `rssi` and `ms = t0`; after
`updatedevice(d, rssi2)` at time `t1`, `finddevice(mac)` still returns `d` and
slot `d` holds `rssi2` and `ms = t1`, so the age `printlist` reports for it at
a 32-bit time `now ≥ t1` is `(now - t1) / 1000`. No order between `t0` and `t1`
is needed. -/
theorem insert_find_refresh (dl : Table) (mac : Mac) (rssi rssi2 : Int) (t0 t1 : Nat)
    (hlen : dl.length = maxdevices)
    (hmiss : finddevice dl mac = -1)
    (hroom : ∃ i, i < maxdevices ∧ isEmpty (slot dl i)) :
    ∃ d : Nat, d < maxdevices ∧
      (adddevice t0 dl mac rssi).1 = (d : Int) ∧
      finddevice (adddevice t0 dl mac rssi).2 mac = (d : Int) ∧
      (slot (adddevice t0 dl mac rssi).2 d).rssi = rssi ∧
      (slot (adddevice t0 dl mac rssi).2 d).ms = t0 ∧
      finddevice (updatedevice t1 (adddevice t0 dl mac rssi).2 d rssi2) mac = (d : Int) ∧
      (slot (updatedevice t1 (adddevice t0 dl mac rssi).2 d rssi2) d).rssi = rssi2 ∧
      (slot (updatedevice t1 (adddevice t0 dl mac rssi).2 d rssi2) d).ms = t1 ∧
      ∀ now, t1 ≤ now → now < 2 ^ 32 →
        age now (slot (updatedevice t1 (adddevice t0 dl mac rssi).2 d rssi2) d).ms =
          (now - t1) / 1000 := by
  rcases hroom with ⟨i0, hi0, hempty0⟩
  have hnone : ∀ j, j < maxdevices → (slot dl j).mac ≠ mac := by
    rcases finddevice_cases dl mac with ⟨_, hall⟩ | ⟨e, _, _, _, heq⟩
    · exact hall
    · rw [heq] at hmiss; omega
  rcases adddevice_cases t0 mac rssi dl with ⟨_, hfull⟩ | ⟨d, hd, _, _, heq⟩
  · exact absurd hempty0 (hfull i0 hi0)
  · have hdl : d < dl.length := by omega
    have hs1 : slot (dl.set d { mac := mac, rssi := rssi, ms := t0 }) d =
        { mac := mac, rssi := rssi, ms := t0 } := slot_set_eq _ _ _ hdl
    have hfind1 : finddevice (dl.set d { mac := mac, rssi := rssi, ms := t0 }) mac = (d : Int) := by
      apply finddevice_eq_of_first _ _ _ hd
      · rw [hs1]
      · intro j hj
        rw [slot_set_ne _ _ _ _ (by omega)]
        exact hnone j (by omega)
    have hdl2 : d < (dl.set d { mac := mac, rssi := rssi, ms := t0 }).length := by
      rw [List.length_set]; exact hdl
    have hs2 : slot (updatedevice t1 (dl.set d { mac := mac, rssi := rssi, ms := t0 }) d rssi2) d =
        { mac := mac, rssi := rssi2, ms := t1 } := by
      unfold updatedevice
      rw [slot_set_eq _ _ _ hdl2, hs1]
    have hfind2 : finddevice
        (updatedevice t1 (dl.set d { mac := mac, rssi := rssi, ms := t0 }) d rssi2) mac =
        (d : Int) := by
      apply finddevice_eq_of_first _ _ _ hd
      · rw [hs2]
      · intro j hj
        unfold updatedevice
        rw [slot_set_ne _ _ _ _ (by omega), slot_set_ne _ _ _ _ (by omega)]
        exact hnone j (by omega)
    refine ⟨d, hd, ?_⟩
    rw [heq]
    refine ⟨rfl, hfind1, ?_, ?_, hfind2, ?_, ?_, ?_⟩
    · show (slot (dl.set d _) d).rssi = rssi
      rw [hs1]
    · show (slot (dl.set d _) d).ms = t0
      rw [hs1]
    · show (slot (updatedevice t1 (dl.set d _) d rssi2) d).rssi = rssi2
      rw [hs2]
    · show (slot (updatedevice t1 (dl.set d _) d rssi2) d).ms = t1
      rw [hs2]
    · intro now h1 h2
      show age now (slot (updatedevice t1 (dl.set d _) d rssi2) d).ms = _
      rw [hs2]
      exact age_eq now t1 h1 h2

/-- C5 on the cleared table, with `aa:bb:cc:dd:ee:ff`, signal -40 at time 0 and
signal -55 at time 10. -/
theorem insert_find_refresh_witness :
    cleared.length = maxdevices ∧ finddevice cleared macA = -1 ∧
    (∃ i, i < maxdevices ∧ isEmpty (slot cleared i)) ∧
    ∃ d : Nat, d < maxdevices ∧
      (adddevice 0 cleared macA (-40)).1 = (d : Int) ∧
      finddevice (adddevice 0 cleared macA (-40)).2 macA = (d : Int) ∧
      (slot (adddevice 0 cleared macA (-40)).2 d).rssi = -40 ∧
      (slot (adddevice 0 cleared macA (-40)).2 d).ms = 0 ∧
      finddevice (updatedevice 10 (adddevice 0 cleared macA (-40)).2 d (-55)) macA = (d : Int) ∧
      (slot (updatedevice 10 (adddevice 0 cleared macA (-40)).2 d (-55)) d).rssi = -55 ∧
      (slot (updatedevice 10 (adddevice 0 cleared macA (-40)).2 d (-55)) d).ms = 10 ∧
      ∀ now, 10 ≤ now → now < 2 ^ 32 →
        age now (slot (updatedevice 10 (adddevice 0 cleared macA (-40)).2 d (-55)) d).ms =
          (now - 10) / 1000 :=
  ⟨length_cleared, finddevice_cleared_macA, ⟨0, by decide, isEmpty_cleared_zero⟩,
    insert_find_refresh cleared macA (-40) (-55) 0 10 length_cleared finddevice_cleared_macA
      ⟨0, by decide, isEmpty_cleared_zero⟩⟩

/-- C6, as the code has it. In a table of `maxdevices` slots where
`finddevice(mac)` returns -1 and some slot is empty, if `mac[0] ≠ 0` and
`rssi ≠ 0` then `onProbeRequest(mac, rssi)` at time `now` fills the slot `d`
that `adddevice` returns with `(mac, rssi, now)`, that slot is live afterwards,
and `countdevices()` is exactly one greater than before. -/
theorem first_sighting_live (now : Nat) (dl : Table) (mac : Mac) (rssi : Int)
    (hlen : dl.length = maxdevices)
    (hmiss : finddevice dl mac = -1)
    (hroom : ∃ i, i < maxdevices ∧ isEmpty (slot dl i))
    (hm : mac.b0 ≠ 0) (hr : rssi ≠ 0) :
    ∃ d : Nat, d < maxdevices ∧
      (adddevice now dl mac rssi).1 = (d : Int) ∧
      slot (onProbeRequest now dl mac rssi).1 d = { mac := mac, rssi := rssi, ms := now } ∧
      isLive (slot (onProbeRequest now dl mac rssi).1 d) ∧
      countdevices (onProbeRequest now dl mac rssi).1 = countdevices dl + 1 := by
  rcases hroom with ⟨i0, hi0, hempty0⟩
  rw [onProbeRequest_miss now dl mac rssi hmiss]
  rcases adddevice_cases now mac rssi dl with ⟨_, hfull⟩ | ⟨d, hd, hempty, _, heq⟩
  · exact absurd hempty0 (hfull i0 hi0)
  · have hdl : d < dl.length := by omega
    have hs : slot (dl.set d { mac := mac, rssi := rssi, ms := now }) d =
        { mac := mac, rssi := rssi, ms := now } := slot_set_eq _ _ _ hdl
    have hlive : isLive (slot (dl.set d { mac := mac, rssi := rssi, ms := now }) d) := by
      rw [hs]; exact ⟨hm, hr⟩
    refine ⟨d, hd, ?_⟩
    rw [heq]
    refine ⟨rfl, hs, hlive, ?_⟩
    unfold countdevices
    exact countdevicesLoop_gain dl _ d (fun j hj => slot_set_ne _ _ _ _ hj)
      (fun h => h.1 hempty.1) hlive maxdevices 0 0 (Nat.zero_le d) (by omega)

set_option maxRecDepth 100000 in
/-- C6 as amended, on the cleared table with `aa:bb:cc:dd:ee:ff` and signal
-40: the count goes from 0 to 1. -/
theorem first_sighting_live_witness :
    finddevice cleared macA = -1 ∧ countdevices cleared = 0 ∧
    ∃ d : Nat, d < maxdevices ∧
      (adddevice 0 cleared macA (-40)).1 = (d : Int) ∧
      slot (onProbeRequest 0 cleared macA (-40)).1 d =
        { mac := macA, rssi := -40, ms := 0 } ∧
      isLive (slot (onProbeRequest 0 cleared macA (-40)).1 d) ∧
      countdevices (onProbeRequest 0 cleared macA (-40)).1 = countdevices cleared + 1 :=
  ⟨finddevice_cleared_macA, by rw [cleared_eq_zeroed]; decide,
    first_sighting_live 0 cleared macA (-40) length_cleared finddevice_cleared_macA
      ⟨0, by decide, isEmpty_cleared_zero⟩ (by decide) (by decide)⟩

set_option maxRecDepth 100000 in
/-- C6 fails for an observation that looks like the empty sentinel. On the
all-zero table (the one `setup()` leaves) `00:11:22:33:44:55` is unknown and
slot 0 is empty;
`onProbeRequest` with signal 0 stores the record in slot 0 and reports a new
device, yet slot 0 is not live and `countdevices()` is still 0. -/
theorem first_sighting_sentinel_not_counted :
    finddevice zeroed macZ = -1 ∧
    (∃ i, i < maxdevices ∧ isEmpty (slot zeroed i)) ∧
    (adddevice 0 zeroed macZ 0).1 = 0 ∧
    slot (onProbeRequest 0 zeroed macZ 0).1 0 = { mac := macZ, rssi := 0, ms := 0 } ∧
    (onProbeRequest 0 zeroed macZ 0).2 =
      ["New device found, MAC: 00:11:22:33:44:55 RSSI: 0"] ∧
    ¬ isLive (slot (onProbeRequest 0 zeroed macZ 0).1 0) ∧
    countdevices zeroed = 0 ∧
    countdevices (onProbeRequest 0 zeroed macZ 0).1 = 0 := by
  refine ⟨by decide, ⟨0, by decide, by decide⟩, by decide, by decide, by decide, by decide,
    by decide, by decide⟩

/-- C9. `updatedevice(i, rssi)` at time `now`, for a slot `i` of the table, sets
the slot's `rssi` to `rssi` and its `ms` to `now`, leaves its six address bytes
as they were, and leaves every other slot (and the size of the table) as it
was; and `onProbeRequest`, when `finddevice` returns `i ≥ 0`, performs exactly
this update and prints nothing. -/
theorem refresh_preserves_identity (now : Nat) (dl : Table) (i : Nat) (rssi : Int)
    (hi : i < maxdevices) (hlen : dl.length = maxdevices) :
    (slot (updatedevice now dl i rssi) i).rssi = rssi ∧
    (slot (updatedevice now dl i rssi) i).ms = now ∧
    (slot (updatedevice now dl i rssi) i).mac = (slot dl i).mac ∧
    (∀ j, j ≠ i → slot (updatedevice now dl i rssi) j = slot dl j) ∧
    (updatedevice now dl i rssi).length = dl.length ∧
    (∀ mac : Mac, finddevice dl mac = (i : Int) →
      onProbeRequest now dl mac rssi = (updatedevice now dl i rssi, [])) := by
  have hs : slot (updatedevice now dl i rssi) i =
      { slot dl i with rssi := rssi, ms := now } := by
    unfold updatedevice
    exact slot_set_eq _ _ _ (by omega)
  refine ⟨by rw [hs], by rw [hs], by rw [hs], ?_, length_updatedevice now dl i rssi, ?_⟩
  · intro j hj
    unfold updatedevice
    exact slot_set_ne _ _ _ _ hj
  · intro mac h
    exact onProbeRequest_hit now dl mac rssi i h

set_option maxRecDepth 100000 in
/-- C9 at `tableA`, slot 0, refreshed with signal -55 at time 10. -/
theorem refresh_preserves_identity_witness :
    (slot (updatedevice 10 tableA 0 (-55)) 0).rssi = -55 ∧
    (slot (updatedevice 10 tableA 0 (-55)) 0).ms = 10 ∧
    (slot (updatedevice 10 tableA 0 (-55)) 0).mac = (slot tableA 0).mac ∧
    (∀ j, j ≠ 0 → slot (updatedevice 10 tableA 0 (-55)) j = slot tableA j) ∧
    (updatedevice 10 tableA 0 (-55)).length = tableA.length ∧
    (∀ mac : Mac, finddevice tableA mac = ((0 : Nat) : Int) →
      onProbeRequest 10 tableA mac (-55) = (updatedevice 10 tableA 0 (-55), [])) :=
  refresh_preserves_identity 10 tableA 0 (-55) (by decide) (by decide)

theorem finddevice_neg_iff (dl : Table) (mac : Mac) :
    finddevice dl mac < 0 ↔ finddevice dl mac = -1 := by
  rcases finddevice_cases dl mac with ⟨h, _⟩ | ⟨d, _, _, _, h⟩
  · rw [h]; simp
  · rw [h]; omega

/-- C10. `onProbeRequest(mac, rssi)` prints nothing when `finddevice(mac)` hits
and exactly one line when it misses. On a miss with no empty slot that line is
the drop notice `Unable to add new device to list, MAC: .. RSSI: ..` and the
table is left as it was; on a miss with an empty slot it is the notice
`New device found, MAC: .. RSSI: ..`; so on a miss the line is the drop notice
if and only if no slot is empty. -/
theorem drop_reporting (now : Nat) (dl : Table) (mac : Mac) (rssi : Int) :
    (0 ≤ finddevice dl mac → (onProbeRequest now dl mac rssi).2 = []) ∧
    (finddevice dl mac < 0 →
      (onProbeRequest now dl mac rssi).2.length = 1 ∧
      ((∀ i, i < maxdevices → ¬ isEmpty (slot dl i)) →
        (onProbeRequest now dl mac rssi).2 =
            ["Unable to add new device to list" ++ ", MAC: " ++ macToString mac ++
              " RSSI: " ++ toString rssi] ∧
          (onProbeRequest now dl mac rssi).1 = dl) ∧
      ((∃ i, i < maxdevices ∧ isEmpty (slot dl i)) →
        (onProbeRequest now dl mac rssi).2 =
            ["New device found" ++ ", MAC: " ++ macToString mac ++
              " RSSI: " ++ toString rssi]) ∧
      ((onProbeRequest now dl mac rssi).2 =
            ["Unable to add new device to list" ++ ", MAC: " ++ macToString mac ++
              " RSSI: " ++ toString rssi] ↔
          ∀ i, i < maxdevices → ¬ isEmpty (slot dl i))) := by
  constructor
  · intro hhit
    rcases finddevice_cases dl mac with ⟨h, _⟩ | ⟨d, _, _, _, h⟩
    · rw [h] at hhit; omega
    · rw [onProbeRequest_hit now dl mac rssi d h]
  · intro hneg
    have hmiss := (finddevice_neg_iff dl mac).1 hneg
    rw [onProbeRequest_miss now dl mac rssi hmiss]
    rcases adddevice_cases now mac rssi dl with ⟨heq, hfull⟩ | ⟨d, hd, hempty, _, heq⟩
    · have hlt : (adddevice now dl mac rssi).1 < 0 := by
        rw [heq]; exact Int.negSucc_lt_zero 0
      rw [if_pos hlt]
      refine ⟨rfl, fun _ => ⟨rfl, by rw [heq]⟩, ?_, ?_⟩
      · rintro ⟨i, hi, he⟩
        exact absurd he (hfull i hi)
      · exact ⟨fun _ => hfull, fun _ => rfl⟩
    · have hlt : ¬ (adddevice now dl mac rssi).1 < 0 := by
        rw [heq]; exact not_lt.2 (Int.ofNat_nonneg d)
      rw [if_neg hlt]
      refine ⟨rfl, ?_, fun _ => rfl, ?_⟩
      · intro hfull
        exact absurd hempty (hfull d hd)
      · constructor
        · intro h
          exact absurd (List.cons_eq_cons.1 h).1 (notice_ne mac rssi)
        · intro hfull
          exact absurd hempty (hfull d hd)

set_option maxRecDepth 100000 in
/-- C10 at the full table `fullTable`: `aa:bb:cc:dd:ee:ff` is unknown, no slot
is empty, and the one line printed is the drop notice, the table staying as it
was. -/
theorem drop_reporting_witness :
    finddevice fullTable macA < 0 ∧
    (∀ i, i < maxdevices → ¬ isEmpty (slot fullTable i)) ∧
    (onProbeRequest 7 fullTable macA (-40)).2 =
        ["Unable to add new device to list" ++ ", MAC: " ++ macToString macA ++
          " RSSI: " ++ toString (-40 : Int)] ∧
    (onProbeRequest 7 fullTable macA (-40)).1 = fullTable :=
  ⟨by decide, by decide,
    ((drop_reporting 7 fullTable macA (-40)).2 (by decide)).2.1 (by decide)⟩

theorem slot_zeroed (i : Nat) :
    slot zeroed i = { mac := ⟨0, 0, 0, 0, 0, 0⟩, rssi := 0, ms := 0 } := by
  unfold slot zeroed
  generalize maxdevices = n
  induction n generalizing i with
  | zero => rfl
  | succ n ih =>
    cases i with
    | zero => rfl
    | succ i => simp [List.replicate_succ]

theorem onProbeRequest_cases (now : Nat) (dl : Table) (mac : Mac) (rssi : Int) :
    (finddevice dl mac = -1 ∧ (∀ j, j < maxdevices → ¬ isEmpty (slot dl j)) ∧
      (onProbeRequest now dl mac rssi).1 = dl) ∨
    (∃ d, d < maxdevices ∧ finddevice dl mac = -1 ∧ isEmpty (slot dl d) ∧
      (∀ j, j < maxdevices → (slot dl j).mac ≠ mac) ∧
      adddevice now dl mac rssi = ((d : Int), dl.set d { mac := mac, rssi := rssi, ms := now }) ∧
      (onProbeRequest now dl mac rssi).1 = dl.set d { mac := mac, rssi := rssi, ms := now }) ∨
    (∃ d, d < maxdevices ∧ finddevice dl mac = (d : Int) ∧ (slot dl d).mac = mac ∧
      (onProbeRequest now dl mac rssi).1 =
        dl.set d { slot dl d with rssi := rssi, ms := now }) := by
  rcases finddevice_cases dl mac with ⟨hmiss, hnone⟩ | ⟨d, hd, hmac, _, hhit⟩
  · rw [onProbeRequest_miss now dl mac rssi hmiss]
    rcases adddevice_cases now mac rssi dl with ⟨heq, hfull⟩ | ⟨d, hd, hempty, _, heq⟩
    · left
      exact ⟨hmiss, hfull, by rw [heq]⟩
    · right; left
      exact ⟨d, hd, hmiss, hempty, hnone, heq, by rw [heq]⟩
  · right; right
    refine ⟨d, hd, hhit, hmac, ?_⟩
    rw [onProbeRequest_hit now dl mac rssi d hhit]
    rfl

theorem length_onProbeRequest (now : Nat) (dl : Table) (mac : Mac) (rssi : Int) :
    (onProbeRequest now dl mac rssi).1.length = dl.length := by
  rcases onProbeRequest_cases now dl mac rssi with ⟨_, _, h⟩ | ⟨d, _, _, _, _, _, h⟩ | ⟨d, _, _, _, h⟩
  · rw [h]
  · rw [h, List.length_set]
  · rw [h, List.length_set]

theorem length_checklist (now : Nat) (dl : Table) : (checklist now dl).1.length = dl.length :=
  checklistLoop_length now maxdevices 0 dl []

theorem length_step (dl : Table) (e : Event) : (step dl e).length = dl.length := by
  cases e with
  | probe mac rssi now => exact length_onProbeRequest now dl mac rssi
  | sweep now => exact length_checklist now dl

theorem checklist_slot (now : Nat) (dl : Table) (j : Nat) :
    slot (checklist now dl).1 j = slot dl j ∨
    (isLive (slot dl j) ∧
      slot (checklist now dl).1 j =
        { mac := { (slot dl j).mac with b0 := 0 }, rssi := 0, ms := 0 }) := by
  unfold checklist
  rw [checklistLoop_slot]
  by_cases h : 0 ≤ j ∧ j < 0 + maxdevices ∧ isLive (slot dl j) ∧
      ((slot dl j).ms + listtimeout * 1000) % 2 ^ 32 < now
  · right
    exact ⟨h.2.2.1, if_pos h⟩
  · left
    exact if_neg h

theorem distinctMacs_step (dl : Table) (e : Event) (hlen : dl.length = maxdevices)
    (h : distinctMacs dl) : distinctMacs (step dl e) := by
  cases e with
  | probe mac rssi now =>
    show distinctMacs (onProbeRequest now dl mac rssi).1
    rcases onProbeRequest_cases now dl mac rssi with
      ⟨_, _, heq⟩ | ⟨d, hd, _, _, hnone, _, heq⟩ | ⟨d, hd, _, _, heq⟩
    · rw [heq]; exact h
    · rw [heq]
      intro i j hi hj hij hsame
      by_cases hid : i = d
      · subst hid
        rw [slot_set_eq _ _ _ (by omega), slot_set_ne _ _ _ _ (Ne.symm hij)] at hsame
        exact absurd hsame.symm (hnone j hj)
      · by_cases hjd : j = d
        · subst hjd
          rw [slot_set_ne _ _ _ _ hid, slot_set_eq _ _ _ (by omega)] at hsame
          exact absurd hsame (hnone i hi)
        · rw [slot_set_ne _ _ _ _ hid, slot_set_ne _ _ _ _ hjd] at hsame
          rw [slot_set_ne _ _ _ _ hid]
          exact h i j hi hj hij hsame
    · rw [heq]
      have hmac : ∀ k, (slot (dl.set d { slot dl d with rssi := rssi, ms := now }) k).mac =
          (slot dl k).mac := by
        intro k
        by_cases hkd : k = d
        · subst hkd
          rw [slot_set_eq _ _ _ (by omega)]
        · rw [slot_set_ne _ _ _ _ hkd]
      intro i j hi hj hij hsame
      rw [hmac i, hmac j] at hsame
      rw [hmac i]
      exact h i j hi hj hij hsame
  | sweep now =>
    show distinctMacs (checklist now dl).1
    intro i j hi hj hij hsame
    rcases checklist_slot now dl i with hi1 | ⟨_, hi1⟩
    · rcases checklist_slot now dl j with hj1 | ⟨_, hj1⟩
      · rw [hi1, hj1] at hsame
        rw [hi1]
        exact h i j hi hj hij hsame
      · rw [hj1] at hsame
        rw [hsame]
    · rw [hi1]

theorem namedHasSignal_step (dl : Table) (e : Event) (hlen : dl.length = maxdevices)
    (hsig : Event.signalled e) (h : namedHasSignal dl) : namedHasSignal (step dl e) := by
  cases e with
  | probe mac rssi now =>
    show namedHasSignal (onProbeRequest now dl mac rssi).1
    have hr : rssi ≠ 0 := hsig
    rcases onProbeRequest_cases now dl mac rssi with
      ⟨_, _, heq⟩ | ⟨d, hd, _, _, _, _, heq⟩ | ⟨d, hd, _, _, heq⟩
    · rw [heq]; exact h
    · rw [heq]
      intro i hi
      by_cases hid : i = d
      · subst hid
        rw [slot_set_eq _ _ _ (by omega)]
        exact fun _ => hr
      · rw [slot_set_ne _ _ _ _ hid]
        exact h i hi
    · rw [heq]
      intro i hi
      by_cases hid : i = d
      · subst hid
        rw [slot_set_eq _ _ _ (by omega)]
        exact fun _ => hr
      · rw [slot_set_ne _ _ _ _ hid]
        exact h i hi
  | sweep now =>
    show namedHasSignal (checklist now dl).1
    intro i hi
    rcases checklist_slot now dl i with h1 | ⟨_, h1⟩
    · rw [h1]; exact h i hi
    · rw [h1]
      intro hb
      exact absurd rfl hb

theorem run_append_one (dl : Table) (evs : List Event) (e : Event) :
    run dl (evs ++ [e]) = step (run dl evs) e := by
  simp [run, List.foldl_append]

theorem length_run (dl : Table) (evs : List Event) : (run dl evs).length = dl.length := by
  induction evs generalizing dl with
  | nil => rfl
  | cons e es ih =>
    show (run (step dl e) es).length = dl.length
    rw [ih, length_step]

theorem distinctMacs_run (evs : List Event) (dl : Table) (hlen : dl.length = maxdevices)
    (h : distinctMacs dl) : distinctMacs (run dl evs) := by
  induction evs generalizing dl with
  | nil => exact h
  | cons e es ih =>
    show distinctMacs (run (step dl e) es)
    exact ih (step dl e) (by rw [length_step]; exact hlen) (distinctMacs_step dl e hlen h)

theorem namedHasSignal_run (evs : List Event) (dl : Table) (hlen : dl.length = maxdevices)
    (hsig : ∀ e, e ∈ evs → Event.signalled e) (h : namedHasSignal dl) :
    namedHasSignal (run dl evs) := by
  induction evs generalizing dl with
  | nil => exact h
  | cons e es ih =>
    show namedHasSignal (run (step dl e) es)
    exact ih (step dl e) (by rw [length_step]; exact hlen)
      (fun e2 he2 => hsig e2 (List.mem_cons_of_mem e he2))
      (namedHasSignal_step dl e hlen (hsig e (List.mem_cons_self e es)) h)

theorem distinctMacs_cleared : distinctMacs cleared := by
  rw [cleared_eq_zeroed]
  intro i j _ _ _ _
  rw [slot_zeroed]

theorem namedHasSignal_cleared : namedHasSignal cleared := by
  rw [cleared_eq_zeroed]
  intro i _ hb
  rw [slot_zeroed] at hb
  exact absurd rfl hb

theorem length_of_reachable (dl : Table) (h : Reachable dl) : dl.length = maxdevices := by
  rcases h with ⟨evs, rfl⟩
  rw [length_run, length_cleared]

/-- C1. Uniqueness: in every table reachable from the cleared table by probe
requests and sweeps at any clock values, two different live slots never hold
the same six address bytes. -/
theorem uniqueness (dl : Table) (hreach : Reachable dl) (i j : Nat)
    (hi : i < maxdevices) (hj : j < maxdevices) (hij : i ≠ j)
    (hli : isLive (slot dl i)) (hlj : isLive (slot dl j)) :
    (slot dl i).mac ≠ (slot dl j).mac := by
  rcases hreach with ⟨evs, rfl⟩
  intro hsame
  exact hli.1 (distinctMacs_run evs cleared length_cleared distinctMacs_cleared i j hi hj hij hsame)

set_option maxRecDepth 100000 in
/-- C1 at `tableAB`: slots 0 and 1 are live and hold different addresses. -/
theorem uniqueness_witness :
    Reachable tableAB ∧ isLive (slot tableAB 0) ∧ isLive (slot tableAB 1) ∧
    (slot tableAB 0).mac ≠ (slot tableAB 1).mac :=
  ⟨⟨[Event.probe macA (-40) 0, Event.probe macB (-40) 1], by rw [cleared_eq_zeroed]; rfl⟩,
    by decide, by decide,
    uniqueness tableAB
      ⟨[Event.probe macA (-40) 0, Event.probe macB (-40) 1], by rw [cleared_eq_zeroed]; rfl⟩
      0 1 (by decide) (by decide) (by decide) (by decide) (by decide)⟩

set_option maxRecDepth 100000 in
/-- C7 at a failing input. After the single observation of `00:11:22:33:44:55`
with signal -40 on the cleared table, which prints `New device found`, slot 0
holds the record and is neither empty nor live; `countdevices()` is 0 and the
254 other slots are the empty ones. -/
theorem half_zero_slot_reachable :
    Reachable tableZ ∧
    (onProbeRequest 0 zeroed macZ (-40)).2 =
      ["New device found, MAC: 00:11:22:33:44:55 RSSI: -40"] ∧
    slot tableZ 0 = { mac := macZ, rssi := -40, ms := 0 } ∧
    ¬ isEmpty (slot tableZ 0) ∧ ¬ isLive (slot tableZ 0) ∧
    countdevices tableZ = 0 ∧
    (∀ i, i < maxdevices → (isEmpty (slot tableZ i) ↔ i ≠ 0)) :=
  ⟨⟨[Event.probe macZ (-40) 0], by rw [cleared_eq_zeroed]; rfl⟩,
    by decide, by decide, by decide, by decide, by decide, by decide⟩

/-- What the code does guarantee around C8. Take a table reachable from the
cleared table by sweeps and by observations of any address with `rssi ≠ 0`, and
an observation `onProbeRequest(mac, rssi)` with `mac[0] ≠ 0`. A slot that is
empty before it is afterwards unchanged, or `finddevice` missed and it is the
slot `adddevice` returned, filled with `(mac, rssi, now)`. And whenever
`finddevice(mac)` returns a slot `i`, that slot is not empty, is live, holds
`mac`, and the observation does `updatedevice(i, rssi)` and nothing else. -/
theorem nonzero_first_byte_transitions (dl : Table) (hreach : ReachableSignalled dl)
    (now : Nat) (mac : Mac) (rssi : Int) (hm : mac.b0 ≠ 0) :
    (∀ j, j < maxdevices → isEmpty (slot dl j) →
      slot (onProbeRequest now dl mac rssi).1 j = slot dl j ∨
      (finddevice dl mac = -1 ∧ (adddevice now dl mac rssi).1 = (j : Int) ∧
        slot (onProbeRequest now dl mac rssi).1 j =
          { mac := mac, rssi := rssi, ms := now })) ∧
    (∀ i : Nat, finddevice dl mac = (i : Int) →
      ¬ isEmpty (slot dl i) ∧ isLive (slot dl i) ∧ (slot dl i).mac = mac ∧
      onProbeRequest now dl mac rssi = (updatedevice now dl i rssi, [])) := by
  rcases hreach with ⟨evs, hsig, rfl⟩
  have hlen : (run cleared evs).length = maxdevices := by
    rw [length_run, length_cleared]
  have hinv := namedHasSignal_run evs cleared length_cleared hsig namedHasSignal_cleared
  generalize run cleared evs = dl at hlen hinv
  constructor
  · intro j hj hempty
    rcases onProbeRequest_cases now dl mac rssi with
      ⟨_, _, heq⟩ | ⟨d, hd, hmiss, _, _, hadd, heq⟩ | ⟨d, hd, _, hmac, heq⟩
    · left; rw [heq]
    · rw [heq]
      by_cases hjd : j = d
      · subst hjd
        right
        exact ⟨hmiss, by rw [hadd], slot_set_eq _ _ _ (by omega)⟩
      · left
        exact slot_set_ne _ _ _ _ hjd
    · left
      rw [heq]
      have hjd : j ≠ d := by
        rintro rfl
        apply hm
        rw [← hmac]
        exact hempty.1
      exact slot_set_ne _ _ _ _ hjd
  · intro i hi
    rcases finddevice_cases dl mac with ⟨hmiss, _⟩ | ⟨d, hd, hmac, _, hhit⟩
    · rw [hmiss] at hi; omega
    · have hdi : d = i := by
        rw [hhit] at hi
        exact Int.ofNat.inj hi
      subst hdi
      have hb : (slot dl d).mac.b0 ≠ 0 := by
        rw [hmac]; exact hm
      exact ⟨fun he => hb he.1, ⟨hb, hinv d hd hb⟩, hmac,
        onProbeRequest_hit now dl mac rssi d hhit⟩

set_option maxRecDepth 100000 in
/-- The guarantee above at `tableAB` and a second sighting of
`aa:bb:cc:dd:ee:ff`: `finddevice` returns the live slot 0 and the empty slots
stay as they were. -/
theorem nonzero_first_byte_transitions_at_tableAB :
    ReachableSignalled tableAB ∧ finddevice tableAB macA = ((0 : Nat) : Int) ∧
    (∀ j, j < maxdevices → isEmpty (slot tableAB j) →
      slot (onProbeRequest 9 tableAB macA (-55)).1 j = slot tableAB j ∨
      (finddevice tableAB macA = -1 ∧ (adddevice 9 tableAB macA (-55)).1 = (j : Int) ∧
        slot (onProbeRequest 9 tableAB macA (-55)).1 j =
          { mac := macA, rssi := -55, ms := 9 })) ∧
    (∀ i : Nat, finddevice tableAB macA = (i : Int) →
      ¬ isEmpty (slot tableAB i) ∧ isLive (slot tableAB i) ∧ (slot tableAB i).mac = macA ∧
      onProbeRequest 9 tableAB macA (-55) = (updatedevice 9 tableAB i (-55), [])) :=
  ⟨⟨[Event.probe macA (-40) 0, Event.probe macB (-40) 1],
      by decide, by rw [cleared_eq_zeroed]; rfl⟩,
    by decide,
    nonzero_first_byte_transitions tableAB
      ⟨[Event.probe macA (-40) 0, Event.probe macB (-40) 1],
        by decide, by rw [cleared_eq_zeroed]; rfl⟩
      9 macA (-55) (by decide)⟩

set_option maxRecDepth 100000 in
/-- C8 at a failing input. `tableSwept` is reached from the cleared table by
seeing `aa:bb:cc:dd:ee:ff` and `b8:27:eb:01:02:03` and sweeping at 130000; its
slots 0 and 1 are empty and slot 1 still holds bytes 1..5 of the second
address. For the observation of `00:27:eb:01:02:03`, an address never seen
before, at time 130001, `finddevice` returns the empty slot 1; `adddevice` is
not called (it would have taken slot 0) and nothing is printed; `updatedevice`
rewrites slot 1, which was empty and not live, and the slot is afterwards
neither empty nor live, so the device is not counted. -/
theorem finddevice_returns_empty_slot :
    Reachable tableSwept ∧
    isEmpty (slot tableSwept 0) ∧ isEmpty (slot tableSwept 1) ∧
    ¬ isLive (slot tableSwept 1) ∧
    finddevice tableSwept macB0 = 1 ∧
    onProbeRequest 130001 tableSwept macB0 (-40) =
      (updatedevice 130001 tableSwept 1 (-40), []) ∧
    slot (onProbeRequest 130001 tableSwept macB0 (-40)).1 1 ≠ slot tableSwept 1 ∧
    (adddevice 130001 tableSwept macB0 (-40)).1 = 0 ∧
    slot (onProbeRequest 130001 tableSwept macB0 (-40)).1 1 =
      { mac := macB0, rssi := -40, ms := 130001 } ∧
    halfZero (slot (onProbeRequest 130001 tableSwept macB0 (-40)).1 1) ∧
    countdevices (onProbeRequest 130001 tableSwept macB0 (-40)).1 = 0 :=
  ⟨⟨[Event.probe macA (-40) 0, Event.probe macB (-40) 1, Event.sweep 130000],
      by rw [cleared_eq_zeroed]; rfl⟩,
    by decide, by decide, by decide, by decide, by decide, by decide, by decide,
    by decide, by decide, by decide⟩

theorem printlistSlots_eq (dl : Table) :
    ∀ n i : Nat, printlistSlots dl n i =
      (List.range' i n).filter (fun j => decide (isLive (slot dl j))) := by
  intro n
  induction n with
  | zero => intro i; rfl
  | succ n ih =>
    intro i
    rw [List.range'_succ]
    by_cases h : (slot dl i).mac.b0 ≠ 0 ∧ (slot dl i).rssi ≠ 0
    · rw [List.filter_cons_of_pos (by simpa using h)]
      simp only [printlistSlots, if_pos h, ih]
    · rw [List.filter_cons_of_neg (by simpa using h)]
      simp only [printlistSlots, if_neg h, ih]

theorem printlistSlots_eq_liveSlots (dl : Table) :
    printlistSlots dl maxdevices 0 = liveSlots dl := by
  rw [printlistSlots_eq, liveSlots, List.range_eq_range']

theorem countdevicesLoop_eq (dl : Table) :
    ∀ n i d : Nat, countdevicesLoop dl n i d = d + (printlistSlots dl n i).length := by
  intro n
  induction n with
  | zero => intro i d; rfl
  | succ n ih =>
    intro i d
    by_cases h : (slot dl i).mac.b0 ≠ 0 ∧ (slot dl i).rssi ≠ 0
    · simp only [countdevicesLoop, printlistSlots, if_pos h, ih, List.length_cons]
      omega
    · simp only [countdevicesLoop, printlistSlots, if_neg h, ih]

theorem countdevices_eq (dl : Table) : countdevices dl = (liveSlots dl).length := by
  unfold countdevices
  rw [countdevicesLoop_eq, printlistSlots_eq_liveSlots, Nat.zero_add]

theorem slot_cleardevice_ne (dl : Table) (i j : Nat) (h : j ≠ i) :
    slot (cleardevice dl i) j = slot dl j := by
  unfold cleardevice
  exact slot_set_ne _ _ _ _ h

theorem checklistLoop_out (now : Nat) :
    ∀ (n i : Nat) (dl : Table) (out : List String),
      (checklistLoop now n i (dl, out)).2 =
        out ++ ((List.range' i n).filter (fun j => decide (isStale now (slot dl j)))).map
          (fun j => "Device " ++ macToString (slot dl j).mac ++ " has left") := by
  intro n
  induction n with
  | zero => intro i dl out; simp [checklistLoop]
  | succ n ih =>
    intro i dl out
    rw [List.range'_succ]
    by_cases h : (slot dl i).mac.b0 ≠ 0 ∧ (slot dl i).rssi ≠ 0 ∧
        ((slot dl i).ms + listtimeout * 1000) % 2 ^ 32 < now
    · rw [List.filter_cons_of_pos (by simpa using h)]
      simp only [checklistLoop, if_pos h]
      rw [ih, List.map_cons, List.append_assoc, List.singleton_append]
      have hsame : ∀ j, j ∈ List.range' (i + 1) n → slot (cleardevice dl i) j = slot dl j := by
        intro j hj
        have := (List.mem_range'_1.1 hj).1
        exact slot_cleardevice_ne dl i j (by omega)
      have hf : (List.range' (i + 1) n).filter
            (fun j => decide (isStale now (slot (cleardevice dl i) j))) =
          (List.range' (i + 1) n).filter (fun j => decide (isStale now (slot dl j))) :=
        List.filter_congr (fun j hj => by rw [hsame j hj])
      rw [hf]
      congr 2
      apply List.map_congr_left
      intro j hj
      rw [hsame j (List.mem_of_mem_filter hj)]
    · rw [List.filter_cons_of_neg (by simpa using h)]
      simp only [checklistLoop, if_neg h]
      rw [ih]

theorem checklist_out (now : Nat) (dl : Table) :
    (checklist now dl).2 =
      (staleSlots now dl).map
        (fun j => "Device " ++ macToString (slot dl j).mac ++ " has left") := by
  unfold checklist
  rw [checklistLoop_out, staleSlots, List.range_eq_range', List.nil_append]

theorem checklistLoop_noop (now : Nat) :
    ∀ (n i : Nat) (dl : Table) (out : List String),
      (∀ j, i ≤ j → j < i + n → ¬ isStale now (slot dl j)) →
      checklistLoop now n i (dl, out) = (dl, out) := by
  intro n
  induction n with
  | zero => intro i dl out _; rfl
  | succ n ih =>
    intro i dl out hno
    have h := hno i (le_refl i) (by omega)
    simp only [checklistLoop, if_neg h]
    exact ih (i + 1) dl out (fun j h1 h2 => hno j (by omega) (by omega))

theorem mem_liveSlots (dl : Table) (i : Nat) :
    i ∈ liveSlots dl ↔ i < maxdevices ∧ isLive (slot dl i) := by
  simp [liveSlots]

theorem mem_staleSlots (now : Nat) (dl : Table) (i : Nat) :
    i ∈ staleSlots now dl ↔ i < maxdevices ∧ isStale now (slot dl i) := by
  simp [staleSlots]

theorem pairwise_liveSlots (dl : Table) : List.Pairwise (fun a b => a < b) (liveSlots dl) :=
  List.Pairwise.filter _ (List.pairwise_lt_range maxdevices)

theorem pairwise_staleSlots (now : Nat) (dl : Table) :
    List.Pairwise (fun a b => a < b) (staleSlots now dl) :=
  List.Pairwise.filter _ (List.pairwise_lt_range maxdevices)

theorem checklist_slot_eq (now : Nat) (dl : Table) (j : Nat) :
    slot (checklist now dl).1 j =
      if j < maxdevices ∧ isStale now (slot dl j) then
        { mac := { (slot dl j).mac with b0 := 0 }, rssi := 0, ms := 0 }
      else slot dl j := by
  unfold checklist
  rw [checklistLoop_slot]
  by_cases h : j < maxdevices ∧ isStale now (slot dl j)
  · rw [if_pos h, if_pos ⟨Nat.zero_le j, by omega, ⟨h.2.1, h.2.2.1⟩, h.2.2.2⟩]
  · rw [if_neg h, if_neg]
    rintro ⟨_, h2, h3, h4⟩
    exact h ⟨by omega, h3.1, h3.2, h4⟩

theorem checklist_idempotent (now : Nat) (dl : Table) :
    checklist now (checklist now dl).1 = ((checklist now dl).1, []) := by
  have hno : ∀ j, 0 ≤ j → j < 0 + maxdevices → ¬ isStale now (slot (checklist now dl).1 j) := by
    intro j _ hj hst
    rw [checklist_slot_eq] at hst
    by_cases h : j < maxdevices ∧ isStale now (slot dl j)
    · rw [if_pos h] at hst
      exact hst.1 rfl
    · rw [if_neg h] at hst
      exact h ⟨by omega, hst⟩
  show checklistLoop now maxdevices 0 ((checklist now dl).1, []) = _
  exact checklistLoop_noop now maxdevices 0 _ [] hno

/-- C11. The lines `checklist()` prints at `now` are `Device <mac> has left`,
one for each slot it evicts and no other, in increasing slot order, each
carrying the six bytes the slot held before it was cleared. The evicted slots
(`staleSlots`) are exactly the slots of the table that were live before and are
not live after, each listed once. A second `checklist()` at the same `now`
prints nothing and leaves the table as the first one left it. -/
theorem sweep_report (now : Nat) (dl : Table) :
    (checklist now dl).2 =
        (staleSlots now dl).map
          (fun i => "Device " ++ macToString (slot dl i).mac ++ " has left") ∧
    (∀ i, i ∈ staleSlots now dl ↔
        i < maxdevices ∧ isLive (slot dl i) ∧ ¬ isLive (slot (checklist now dl).1 i)) ∧
    List.Pairwise (fun a b => a < b) (staleSlots now dl) ∧
    checklist now (checklist now dl).1 = ((checklist now dl).1, []) := by
  refine ⟨checklist_out now dl, ?_, pairwise_staleSlots now dl, checklist_idempotent now dl⟩
  intro i
  rw [mem_staleSlots, checklist_slot_eq]
  constructor
  · intro h
    rw [if_pos h]
    exact ⟨h.1, ⟨h.2.1, h.2.2.1⟩, fun hl => hl.1 rfl⟩
  · rintro ⟨hi, hlive, hdead⟩
    by_cases h : i < maxdevices ∧ isStale now (slot dl i)
    · exact h
    · rw [if_neg h] at hdead
      exact absurd hlive hdead

set_option maxRecDepth 100000 in
/-- C11 at `tableAB` and `now = 130000`: both devices are reported, slot 0
first, and a second sweep is silent. -/
theorem sweep_report_witness :
    (checklist 130000 tableAB).2 =
      ["Device aa:bb:cc:dd:ee:ff has left", "Device b8:27:eb:01:02:03 has left"] ∧
    staleSlots 130000 tableAB = [0, 1] ∧
    checklist 130000 (checklist 130000 tableAB).1 = ((checklist 130000 tableAB).1, []) :=
  ⟨by decide, by decide, (sweep_report 130000 tableAB).2.2.2⟩

/-- C12. `printlist()` at `now` prints an empty line, then the header with the
count `countdevices()` and the runtime `now / 1000`, then one line for each live
slot and no other, in increasing slot order, with the slot's address, its stored
`rssi` and its age. The count printed is the number of live slots, so it is the
number of entries. The age is the 32-bit unsigned `millis() - ms` divided by
1000, which is `(now - ms) / 1000` for `ms ≤ now < 2 ^ 32`. `printlist` only
reads the table: its embedding has no table to return. -/
theorem report_contents (now : Nat) (dl : Table) :
    printlist now dl =
        ["", toString (countdevices dl) ++ " registered devices (prober running for " ++
            toString (now / 1000) ++ " seconds):"] ++
          (liveSlots dl).map (fun i =>
            "MAC: " ++ macToString (slot dl i).mac ++ " RSSI: " ++ toString (slot dl i).rssi ++
              " last seen " ++ toString (age now (slot dl i).ms) ++ " seconds ago") ∧
    countdevices dl = (liveSlots dl).length ∧
    (printlist now dl).length = 2 + countdevices dl ∧
    (∀ i, i ∈ liveSlots dl ↔ i < maxdevices ∧ isLive (slot dl i)) ∧
    List.Pairwise (fun a b => a < b) (liveSlots dl) ∧
    (∀ i, (slot dl i).ms ≤ now → now < 2 ^ 32 →
      age now (slot dl i).ms = (now - (slot dl i).ms) / 1000) := by
  have hp : printlist now dl =
        ["", toString (countdevices dl) ++ " registered devices (prober running for " ++
            toString (now / 1000) ++ " seconds):"] ++
          (liveSlots dl).map (fun i =>
            "MAC: " ++ macToString (slot dl i).mac ++ " RSSI: " ++ toString (slot dl i).rssi ++
              " last seen " ++ toString (age now (slot dl i).ms) ++ " seconds ago") := by
    unfold printlist
    by_cases hc : countdevices dl > 0
    · simp only [if_pos hc, printlistSlots_eq_liveSlots, printlistEntry]
    · have hnil : liveSlots dl = [] := by
        have h0 : (liveSlots dl).length = 0 := by
          rw [← countdevices_eq]; omega
        exact List.length_eq_zero.1 h0
      simp only [if_neg hc, hnil, List.map_nil]
  refine ⟨hp, countdevices_eq dl, ?_, mem_liveSlots dl, pairwise_liveSlots dl, ?_⟩
  · rw [hp, List.length_append, List.length_map, ← countdevices_eq]
    rfl
  · intro i h1 h2
    exact age_eq now _ h1 h2

set_option maxRecDepth 100000 in
/-- C12 at `tableAB` and `now = 2000`: two devices, slot 0 first. -/
theorem report_contents_witness :
    printlist 2000 tableAB =
      ["", "2 registered devices (prober running for 2 seconds):",
        "MAC: aa:bb:cc:dd:ee:ff RSSI: -40 last seen 2 seconds ago",
        "MAC: b8:27:eb:01:02:03 RSSI: -40 last seen 1 seconds ago"] ∧
    countdevices tableAB = (liveSlots tableAB).length ∧
    liveSlots tableAB = [0, 1] :=
  ⟨by decide, (report_contents 2000 tableAB).2.1, by decide⟩

/-- C13. `adddevice(mac, rssi)` at `now`, on a table of `maxdevices` slots,
returns -1 exactly when no slot is empty, and then leaves the table as it was;
otherwise it returns the smallest index `d` whose slot is empty, slot `d` then
holds the six bytes of `mac`, `rssi` and `ms = now`, and every other slot is as
before. The slot chosen does not depend on `mac`: there is no duplicate check,
whatever the other slots hold. -/
theorem insert_first_empty (now : Nat) (dl : Table) (mac : Mac) (rssi : Int)
    (hlen : dl.length = maxdevices) :
    ((adddevice now dl mac rssi).1 = -1 ↔ ∀ j, j < maxdevices → ¬ isEmpty (slot dl j)) ∧
    ((adddevice now dl mac rssi).1 = -1 → (adddevice now dl mac rssi).2 = dl) ∧
    ((∃ j, j < maxdevices ∧ isEmpty (slot dl j)) →
      ∃ d : Nat, d < maxdevices ∧ (adddevice now dl mac rssi).1 = (d : Int) ∧
        isEmpty (slot dl d) ∧ (∀ j, j < d → ¬ isEmpty (slot dl j)) ∧
        slot (adddevice now dl mac rssi).2 d = { mac := mac, rssi := rssi, ms := now } ∧
        (∀ j, j ≠ d → slot (adddevice now dl mac rssi).2 j = slot dl j) ∧
        (adddevice now dl mac rssi).2.length = dl.length) ∧
    (∀ (mac2 : Mac) (rssi2 : Int) (now2 : Nat),
      (adddevice now2 dl mac2 rssi2).1 = (adddevice now dl mac rssi).1) := by
  rcases adddevice_cases now mac rssi dl with ⟨heq, hfull⟩ | ⟨d, hd, hempty, hfirst, heq⟩
  · rw [heq]
    refine ⟨⟨fun _ => hfull, fun _ => rfl⟩, fun _ => rfl, ?_, ?_⟩
    · rintro ⟨j, hj, he⟩
      exact absurd he (hfull j hj)
    · intro mac2 rssi2 now2
      rcases adddevice_cases now2 mac2 rssi2 dl with ⟨heq2, _⟩ | ⟨d2, hd2, hempty2, _, _⟩
      · rw [heq2]
      · exact absurd hempty2 (hfull d2 hd2)
  · rw [heq]
    refine ⟨⟨?_, ?_⟩, ?_, ?_, ?_⟩
    · intro h
      have h2 : (d : Int) = -1 := h
      omega
    · intro hfull
      exact absurd hempty (hfull d hd)
    · intro h
      have h2 : (d : Int) = -1 := h
      omega
    · intro _
      exact ⟨d, hd, rfl, hempty, hfirst, slot_set_eq _ _ _ (by omega),
        fun j hj => slot_set_ne _ _ _ _ hj, List.length_set _ _ _⟩
    · intro mac2 rssi2 now2
      rcases adddevice_cases now2 mac2 rssi2 dl with ⟨_, hfull2⟩ | ⟨d2, hd2, hempty2, hfirst2, heq2⟩
      · exact absurd hempty (hfull2 d hd)
      · rw [heq2]
        have hdd : d2 = d := by
          rcases Nat.lt_trichotomy d2 d with h | h | h
          · exact absurd hempty2 (hfirst d2 h)
          · exact h
          · exact absurd hempty (hfirst2 d h)
        rw [hdd]

set_option maxRecDepth 100000 in
/-- C13 at `tableA`, whose slot 0 already holds `aa:bb:cc:dd:ee:ff`: adding the
same address again takes slot 1, and two slots then hold it. -/
theorem insert_first_empty_witness :
    tableA.length = maxdevices ∧ (slot tableA 0).mac = macA ∧
    (adddevice 5 tableA macA (-60)).1 = 1 ∧
    slot (adddevice 5 tableA macA (-60)).2 1 = { mac := macA, rssi := -60, ms := 5 } ∧
    (slot (adddevice 5 tableA macA (-60)).2 0).mac = macA ∧
    (∀ (mac2 : Mac) (rssi2 : Int) (now2 : Nat),
      (adddevice now2 tableA mac2 rssi2).1 = (adddevice 5 tableA macA (-60)).1) :=
  ⟨by decide, by decide, by decide, by decide, by decide,
    (insert_first_empty 5 tableA macA (-60) (by decide)).2.2.2⟩

/-- C14. `finddevice(mac)` returns -1 exactly when no slot `i < maxdevices`
holds the six bytes of `mac`; otherwise it returns the smallest such `i`. It
returns nothing else, and it only reads the table. -/
theorem find_first_match (dl : Table) (mac : Mac) :
    (finddevice dl mac = -1 ↔ ∀ j, j < maxdevices → (slot dl j).mac ≠ mac) ∧
    (∀ i : Nat, finddevice dl mac = (i : Int) ↔
      i < maxdevices ∧ (slot dl i).mac = mac ∧ ∀ j, j < i → (slot dl j).mac ≠ mac) ∧
    (finddevice dl mac = -1 ∨ ∃ i : Nat, i < maxdevices ∧ finddevice dl mac = (i : Int)) ∧
    (∀ a b : Mac, a = b ↔
      (a.b0 = b.b0 ∧ a.b1 = b.b1 ∧ a.b2 = b.b2 ∧ a.b3 = b.b3 ∧ a.b4 = b.b4 ∧ a.b5 = b.b5)) := by
  refine ⟨?_, ?_, ?_, fun a b => (mac_eq_iff a b).symm⟩
  · rcases finddevice_cases dl mac with ⟨heq, hnone⟩ | ⟨d, hd, hmac, _, heq⟩
    · exact ⟨fun _ => hnone, fun _ => heq⟩
    · constructor
      · intro h
        rw [heq] at h
        omega
      · intro hnone
        exact absurd hmac (hnone d hd)
  · intro i
    constructor
    · intro h
      rcases finddevice_cases dl mac with ⟨heq, _⟩ | ⟨d, hd, hmac, hfirst, heq⟩
      · rw [heq] at h
        omega
      · have hdi : d = i := by
          rw [heq] at h
          exact Int.ofNat.inj h
        subst hdi
        exact ⟨hd, hmac, hfirst⟩
    · rintro ⟨hi, hmac, hfirst⟩
      exact finddevice_eq_of_first dl mac i hi hmac hfirst
  · rcases finddevice_cases dl mac with ⟨heq, _⟩ | ⟨d, hd, _, _, heq⟩
    · exact Or.inl heq
    · exact Or.inr ⟨d, hd, heq⟩

theorem length_filter_split (l : List Nat) (p q r : Nat → Bool)
    (h : ∀ x, x ∈ l → (p x = true ↔ (q x = true ∨ r x = true)))
    (hd : ∀ x, x ∈ l → ¬ (q x = true ∧ r x = true)) :
    (l.filter p).length = (l.filter q).length + (l.filter r).length := by
  induction l with
  | nil => rfl
  | cons a l ih =>
    have ih2 := ih (fun x hx => h x (List.mem_cons_of_mem a hx))
      (fun x hx => hd x (List.mem_cons_of_mem a hx))
    have ha := h a (List.mem_cons_self a l)
    have hda := hd a (List.mem_cons_self a l)
    by_cases hq : q a = true
    · have hr : ¬ r a = true := fun hr => hda ⟨hq, hr⟩
      have hp : p a = true := ha.2 (Or.inl hq)
      rw [List.filter_cons_of_pos hp, List.filter_cons_of_pos hq, List.filter_cons_of_neg hr]
      simp only [List.length_cons]
      omega
    · by_cases hr : r a = true
      · have hp : p a = true := ha.2 (Or.inr hr)
        rw [List.filter_cons_of_pos hp, List.filter_cons_of_neg hq, List.filter_cons_of_pos hr]
        simp only [List.length_cons]
        omega
      · have hp : ¬ p a = true := fun hp => (ha.1 hp).elim hq hr
        rw [List.filter_cons_of_neg hp, List.filter_cons_of_neg hq, List.filter_cons_of_neg hr]
        exact ih2

theorem countdevices_checklist (now : Nat) (dl : Table) :
    countdevices (checklist now dl).1 + (staleSlots now dl).length = countdevices dl := by
  rw [countdevices_eq, countdevices_eq]
  unfold liveSlots staleSlots
  symm
  apply length_filter_split
  · intro x hx
    have hxlt : x < maxdevices := List.mem_range.1 hx
    simp only [decide_eq_true_eq]
    rw [checklist_slot_eq]
    by_cases hst : x < maxdevices ∧ isStale now (slot dl x)
    · rw [if_pos hst]
      constructor
      · intro _; exact Or.inr hst.2
      · intro _; exact ⟨hst.2.1, hst.2.2.1⟩
    · rw [if_neg hst]
      constructor
      · intro hl; exact Or.inl hl
      · rintro (hl | hs)
        · exact hl
        · exact ⟨hs.1, hs.2.1⟩
  · intro x hx
    have hxlt : x < maxdevices := List.mem_range.1 hx
    simp only [decide_eq_true_eq]
    rintro ⟨hl, hs⟩
    rw [checklist_slot_eq, if_pos ⟨hxlt, hs⟩] at hl
    exact hl.1 rfl

/-- C15. `checklist()` at `now` leaves every slot it does not evict exactly as it
was, and the size of the table too. Every slot it evicts holds afterwards
`mac[0] = 0`, `rssi = 0`, `ms = 0` and its old bytes 1..5, so it passes the empty
test of `adddevice`. `countdevices()` drops by exactly the number of lines
printed, which is the number of evicted slots. A following `adddevice` succeeds
whenever a slot was evicted, at an index not above it, and takes the evicted
slot itself when no lower slot is empty. -/
theorem sweep_frame_and_reuse (now : Nat) (dl : Table) :
    (∀ i, i ∉ staleSlots now dl → slot (checklist now dl).1 i = slot dl i) ∧
    (checklist now dl).1.length = dl.length ∧
    (∀ i, i ∈ staleSlots now dl →
      slot (checklist now dl).1 i =
          { mac := { (slot dl i).mac with b0 := 0 }, rssi := 0, ms := 0 } ∧
        isEmpty (slot (checklist now dl).1 i)) ∧
    (checklist now dl).2.length = (staleSlots now dl).length ∧
    countdevices (checklist now dl).1 + (checklist now dl).2.length = countdevices dl ∧
    (∀ e, e ∈ staleSlots now dl → ∀ (t : Nat) (mac : Mac) (rssi : Int),
      (∃ d : Nat, d ≤ e ∧ (adddevice t (checklist now dl).1 mac rssi).1 = (d : Int)) ∧
      ((∀ j, j < e → ¬ isEmpty (slot (checklist now dl).1 j)) →
        (adddevice t (checklist now dl).1 mac rssi).1 = (e : Int) ∧
        slot (adddevice t (checklist now dl).1 mac rssi).2 e =
          { mac := mac, rssi := rssi, ms := t })) := by
  have hcleared : ∀ i, i ∈ staleSlots now dl →
      slot (checklist now dl).1 i =
          { mac := { (slot dl i).mac with b0 := 0 }, rssi := 0, ms := 0 } := by
    intro i hi
    rw [checklist_slot_eq, if_pos ((mem_staleSlots now dl i).1 hi)]
  have hempty : ∀ i, i ∈ staleSlots now dl → isEmpty (slot (checklist now dl).1 i) := by
    intro i hi
    rw [hcleared i hi]
    exact ⟨rfl, rfl⟩
  have hlen : (checklist now dl).2.length = (staleSlots now dl).length := by
    rw [checklist_out, List.length_map]
  refine ⟨?_, length_checklist now dl, fun i hi => ⟨hcleared i hi, hempty i hi⟩, hlen, ?_, ?_⟩
  · intro i hi
    rw [checklist_slot_eq, if_neg (fun h => hi ((mem_staleSlots now dl i).2 h))]
  · rw [hlen]
    exact countdevices_checklist now dl
  · intro e he t mac rssi
    have hst := (mem_staleSlots now dl e).1 he
    have helt : e < (checklist now dl).1.length := by
      rw [length_checklist]
      exact isLive_slot_lt dl e ⟨hst.2.1, hst.2.2.1⟩
    rcases adddevice_cases t mac rssi (checklist now dl).1 with
      ⟨_, hfull⟩ | ⟨d, hd, hdempty, hfirst, heq⟩
    · exact absurd (hempty e he) (hfull e hst.1)
    · have hde : d ≤ e := by
        by_contra hlt
        exact hfirst e (by omega) (hempty e he)
      refine ⟨⟨d, hde, by rw [heq]⟩, ?_⟩
      intro hlow
      have hdeq : d = e := by
        rcases Nat.lt_or_eq_of_le hde with h | h
        · exact absurd hdempty (hlow d h)
        · exact h
      subst hdeq
      rw [heq]
      exact ⟨rfl, slot_set_eq _ _ _ helt⟩

set_option maxRecDepth 100000 in
/-- C15 at `tableAB` and `now = 130000`: both slots are evicted, the count
drops from 2 to 0, and the next `adddevice` takes slot 0. -/
theorem sweep_frame_and_reuse_witness :
    staleSlots 130000 tableAB = [0, 1] ∧ countdevices tableAB = 2 ∧
    countdevices (checklist 130000 tableAB).1 + (checklist 130000 tableAB).2.length =
      countdevices tableAB ∧
    (adddevice 130001 (checklist 130000 tableAB).1 macA (-40)).1 = ((0 : Nat) : Int) ∧
    slot (adddevice 130001 (checklist 130000 tableAB).1 macA (-40)).2 0 =
      { mac := macA, rssi := -40, ms := 130001 } :=
  ⟨by decide, by decide, (sweep_frame_and_reuse 130000 tableAB).2.2.2.2.1,
    ((sweep_frame_and_reuse 130000 tableAB).2.2.2.2.2 0 (by decide) 130001 macA (-40)).2
      (fun j hj => absurd hj (Nat.not_lt_zero j))⟩

/-- C16. For a live slot `i` of the table, `checklist()` at `now` evicts it (the
slot is cleared, not live afterwards, and its departure is printed) if and only
if `(ms + listtimeout * 1000) mod 2 ^ 32 < now`; otherwise the slot is left as
it was. Hence, when `ms + 120000 < 2 ^ 32`, it is evicted exactly when
`now - ms > 120000`; and when `2 ^ 32 - 120000 ≤ ms < 2 ^ 32`, it is evicted
exactly when `now > ms + 120000 - 2 ^ 32`, which includes `now = ms`. -/
theorem exact_eviction_test (now : Nat) (dl : Table) (i : Nat)
    (hi : i < maxdevices) (hlive : isLive (slot dl i)) :
    (¬ isLive (slot (checklist now dl).1 i) ↔
      ((slot dl i).ms + listtimeout * 1000) % 2 ^ 32 < now) ∧
    (i ∈ staleSlots now dl ↔ ((slot dl i).ms + listtimeout * 1000) % 2 ^ 32 < now) ∧
    (slot (checklist now dl).1 i = slot dl i ↔
      ¬ ((slot dl i).ms + listtimeout * 1000) % 2 ^ 32 < now) ∧
    ((slot dl i).ms + 120000 < 2 ^ 32 →
      (¬ isLive (slot (checklist now dl).1 i) ↔ now - (slot dl i).ms > 120000)) ∧
    ((slot dl i).ms < 2 ^ 32 → 2 ^ 32 - 120000 ≤ (slot dl i).ms →
      (¬ isLive (slot (checklist now dl).1 i) ↔ now > (slot dl i).ms + 120000 - 2 ^ 32) ∧
      (now = (slot dl i).ms → ¬ isLive (slot (checklist now dl).1 i))) := by
  have hkey : ¬ isLive (slot (checklist now dl).1 i) ↔
      ((slot dl i).ms + listtimeout * 1000) % 2 ^ 32 < now := by
    rw [checklist_slot_eq]
    by_cases hst : i < maxdevices ∧ isStale now (slot dl i)
    · rw [if_pos hst]
      exact ⟨fun _ => hst.2.2.2, fun _ hl => hl.1 rfl⟩
    · rw [if_neg hst]
      constructor
      · intro h; exact absurd hlive h
      · intro h; exact absurd ⟨hi, hlive.1, hlive.2, h⟩ hst
  have h120 : listtimeout * 1000 = 120000 := rfl
  refine ⟨hkey, ?_, ?_, ?_, ?_⟩
  · rw [mem_staleSlots]
    exact ⟨fun h => h.2.2.2, fun h => ⟨hi, hlive.1, hlive.2, h⟩⟩
  · rw [checklist_slot_eq]
    by_cases hst : i < maxdevices ∧ isStale now (slot dl i)
    · rw [if_pos hst]
      constructor
      · intro h
        have hb : (slot dl i).mac.b0 = 0 := by rw [← h]
        exact absurd hb hlive.1
      · intro h; exact absurd hst.2.2.2 h
    · rw [if_neg hst]
      exact ⟨fun _ h => hst ⟨hi, hlive.1, hlive.2, h⟩, fun _ => rfl⟩
  · intro hfits
    rw [hkey, h120, Nat.mod_eq_of_lt hfits]
    omega
  · intro hms hlate
    have hmod : ((slot dl i).ms + 120000) % 2 ^ 32 = (slot dl i).ms + 120000 - 2 ^ 32 := by
      rw [Nat.mod_eq_sub_mod (by omega), Nat.mod_eq_of_lt (by omega)]
    rw [hkey, h120, hmod]
    exact ⟨Iff.rfl, fun h => by omega⟩

set_option maxRecDepth 100000 in
/-- C16 at `tableLate`, whose slot 0 has `ms = 2 ^ 32 - 120000`: swept at
`now = ms`, the slot is evicted. -/
theorem exact_eviction_test_witness :
    isLive (slot tableLate 0) ∧ (slot tableLate 0).ms = 4294847296 ∧
    ¬ isLive (slot (checklist 4294847296 tableLate).1 0) :=
  ⟨by decide, by decide,
    (((exact_eviction_test 4294847296 tableLate 0 (by decide) (by decide)).2.2.2.2
      (by decide) (by decide)).2) (by decide)⟩

/-- C17. Take a table of `maxdevices` slots. A slot `i` in which exactly one of
`mac[0]` and `rssi` is zero is not live, so `countdevices()` does not count it
and `printlist()` does not list it; it is not empty, so `adddevice` never
returns it nor writes it; `checklist()` at any `now` neither evicts nor changes
it; `updatedevice` on another slot leaves it alone; and `onProbeRequest` changes
it only when `finddevice` returns `i`, by `updatedevice(i, rssi)`. Such a slot
is produced by `onProbeRequest(mac, rssi)` with exactly one of `mac[0]` and
`rssi` zero, whenever the observation is stored (the address is found, or a
slot is empty): the slot that holds it afterwards is such a slot. -/
theorem half_zero_stuck (dl : Table) (hlen : dl.length = maxdevices) :
    (∀ i, i < maxdevices → halfZero (slot dl i) →
      (¬ isLive (slot dl i) ∧ ¬ isEmpty (slot dl i)) ∧
      (i ∉ liveSlots dl ∧ countdevices dl = (liveSlots dl).length) ∧
      i ∉ printlistSlots dl maxdevices 0 ∧
      (∀ (now : Nat) (mac : Mac) (rssi : Int),
        (adddevice now dl mac rssi).1 ≠ (i : Int) ∧
        slot (adddevice now dl mac rssi).2 i = slot dl i) ∧
      (∀ now : Nat, i ∉ staleSlots now dl ∧ slot (checklist now dl).1 i = slot dl i) ∧
      (∀ (now j : Nat) (rssi : Int), j ≠ i → slot (updatedevice now dl j rssi) i = slot dl i) ∧
      (∀ (now : Nat) (mac : Mac) (rssi : Int),
        slot (onProbeRequest now dl mac rssi).1 i ≠ slot dl i →
          finddevice dl mac = (i : Int) ∧
          (onProbeRequest now dl mac rssi).1 = updatedevice now dl i rssi)) ∧
    (∀ (now : Nat) (mac : Mac) (rssi : Int),
      ((mac.b0 = 0 ∧ rssi ≠ 0) ∨ (mac.b0 ≠ 0 ∧ rssi = 0)) →
      (0 ≤ finddevice dl mac ∨ ∃ j, j < maxdevices ∧ isEmpty (slot dl j)) →
      ∃ d, d < maxdevices ∧
        (slot (onProbeRequest now dl mac rssi).1 d).mac = mac ∧
        (slot (onProbeRequest now dl mac rssi).1 d).rssi = rssi ∧
        (slot (onProbeRequest now dl mac rssi).1 d).ms = now ∧
        halfZero (slot (onProbeRequest now dl mac rssi).1 d)) := by
  constructor
  · intro i hi hz
    have hnl : ¬ isLive (slot dl i) := by
      rintro ⟨h1, h2⟩
      rcases hz with ⟨h, _⟩ | ⟨_, h⟩
      · exact h1 h
      · exact h2 h
    have hne : ¬ isEmpty (slot dl i) := by
      rintro ⟨h1, h2⟩
      rcases hz with ⟨_, h⟩ | ⟨h, _⟩
      · exact h h2
      · exact h h1
    have hnotlive : i ∉ liveSlots dl := fun h => hnl ((mem_liveSlots dl i).1 h).2
    refine ⟨⟨hnl, hne⟩, ⟨hnotlive, countdevices_eq dl⟩, ?_, ?_, ?_, ?_, ?_⟩
    · rw [printlistSlots_eq_liveSlots]; exact hnotlive
    · intro now mac rssi
      rcases adddevice_cases now mac rssi dl with ⟨heq, _⟩ | ⟨d, hd, hdempty, _, heq⟩
      · rw [heq]
        exact ⟨fun h => by have h2 : (-1 : Int) = (i : Int) := h; omega, rfl⟩
      · rw [heq]
        have hdi : i ≠ d := by
          rintro rfl
          exact hne hdempty
        exact ⟨fun h => hdi (Int.ofNat.inj h).symm, slot_set_ne _ _ _ _ hdi⟩
    · intro now
      have hns : i ∉ staleSlots now dl := by
        intro h
        have h2 := (mem_staleSlots now dl i).1 h
        exact hnl ⟨h2.2.1, h2.2.2.1⟩
      refine ⟨hns, ?_⟩
      rw [checklist_slot_eq, if_neg (fun h => hns ((mem_staleSlots now dl i).2 h))]
    · intro now j rssi hj
      unfold updatedevice
      exact slot_set_ne _ _ _ _ (Ne.symm hj)
    · intro now mac rssi hchg
      rcases onProbeRequest_cases now dl mac rssi with
        ⟨_, _, heq⟩ | ⟨d, hd, _, hdempty, _, _, heq⟩ | ⟨d, hd, hhit, _, heq⟩
      · rw [heq] at hchg
        exact absurd rfl hchg
      · rw [heq] at hchg
        have hdi : i ≠ d := by
          rintro rfl
          exact hne hdempty
        exact absurd (slot_set_ne _ _ _ _ hdi) hchg
      · have hdi : d = i := by
          by_contra hdi
          rw [heq] at hchg
          exact hchg (slot_set_ne _ _ _ _ (Ne.symm hdi))
        subst hdi
        exact ⟨hhit, heq⟩
  · intro now mac rssi hobs hstored
    rcases onProbeRequest_cases now dl mac rssi with
      ⟨hmiss, hfull, _⟩ | ⟨d, hd, _, _, _, _, heq⟩ | ⟨d, hd, _, hmac, heq⟩
    · rcases hstored with h | ⟨j, hj, he⟩
      · rw [hmiss] at h; omega
      · exact absurd he (hfull j hj)
    · refine ⟨d, hd, ?_⟩
      rw [heq, slot_set_eq _ _ _ (by omega)]
      exact ⟨rfl, rfl, rfl, hobs⟩
    · refine ⟨d, hd, ?_⟩
      rw [heq, slot_set_eq _ _ _ (by omega)]
      refine ⟨hmac, rfl, rfl, ?_⟩
      show ((slot dl d).mac.b0 = 0 ∧ rssi ≠ 0) ∨ ((slot dl d).mac.b0 ≠ 0 ∧ rssi = 0)
      rw [hmac]
      exact hobs

set_option maxRecDepth 100000 in
/-- C17 at `tableZ`, whose slot 0 holds `00:11:22:33:44:55` with signal -40; it
was produced from the all-zero table by that observation. -/
theorem half_zero_stuck_witness :
    tableZ.length = maxdevices ∧ halfZero (slot tableZ 0) ∧
    countdevices tableZ = 0 ∧
    0 ∉ printlistSlots tableZ maxdevices 0 ∧
    (∀ (now : Nat) (mac : Mac) (rssi : Int),
      (adddevice now tableZ mac rssi).1 ≠ ((0 : Nat) : Int) ∧
      slot (adddevice now tableZ mac rssi).2 0 = slot tableZ 0) ∧
    (∀ now : Nat, 0 ∉ staleSlots now tableZ ∧ slot (checklist now tableZ).1 0 = slot tableZ 0) ∧
    (∃ d, d < maxdevices ∧
      (slot (onProbeRequest 0 zeroed macZ (-40)).1 d).mac = macZ ∧
      (slot (onProbeRequest 0 zeroed macZ (-40)).1 d).rssi = -40 ∧
      (slot (onProbeRequest 0 zeroed macZ (-40)).1 d).ms = 0 ∧
      halfZero (slot (onProbeRequest 0 zeroed macZ (-40)).1 d)) :=
  ⟨by decide, by decide, by decide,
    ((half_zero_stuck tableZ (by decide)).1 0 (by decide) (by decide)).2.2.1,
    ((half_zero_stuck tableZ (by decide)).1 0 (by decide) (by decide)).2.2.2.1,
    ((half_zero_stuck tableZ (by decide)).1 0 (by decide) (by decide)).2.2.2.2.1,
    (half_zero_stuck zeroed length_zeroed).2 0 macZ (-40) (Or.inl ⟨by decide, by decide⟩)
      (Or.inr ⟨0, by decide, by decide⟩)⟩

end ESProber
